import Mathlib

/-!
# lidarReceiver: acquisition-to-datagram pipeline

A shallow embedding of `src/app/lidarReceiver/main.cpp` and
`src/app/lidarReceiver/UdpSender.cpp`.

* Machine integers are natural numbers / integers of the stated width.
* `float` is IEEE-754 binary32: a value is kept as the exact rational it
  denotes, and every operation that can round is rounded explicitly.
* The scanner driver, the C library and the socket layer are external; each
  call is answered by an oracle that may depend on the whole history of
  calls made so far, and every call is recorded in a trace.
-/

namespace LidarReceiver

/-! ## Raw samples and binary32 arithmetic -/

/-- Modelled from the spec: the Raw Sample record filled in by `grabScanDataHq`
(`sl_lidar_response_measurement_node_hq_t`, declared in the SDK headers, not
under `src/`), with the three fields read at `main.cpp` lines 250-252: a
16-bit quantized angle, a 32-bit quantized distance, an 8-bit quality. -/
structure Node where
  angle_z_q14 : Nat
  dist_mm_q2 : Nat
  quality : Nat
  deriving DecidableEq, Repr

/-- Width constraints of the node fields. -/
def Node.wf (n : Node) : Prop :=
  n.angle_z_q14 < 2 ^ 16 ∧ n.dist_mm_q2 < 2 ^ 32 ∧ n.quality < 2 ^ 8

instance (n : Node) : Decidable n.wf := by unfold Node.wf; infer_instance

/-- Number of binary digits of `n`, by repeated halving (`fuel` bounds the number of halvings). -/
def bitLen : Nat → Nat → Nat
  | 0, _ => 0
  | fuel + 1, n => if n = 0 then 0 else bitLen fuel (n / 2) + 1

/-- Round-to-nearest, ties-to-even quotient of `num / den`. -/
def roundHalfEven (num den : Nat) : Nat :=
  let f := num / den
  let r := num % den
  if 2 * r > den ∨ (2 * r = den ∧ f % 2 = 1) then f + 1 else f

/-- Conversion of an unsigned integer below `2^64` to binary32 (24-bit
significand, round to nearest, ties to even), returned as the integer value of
the resulting float.  This is the implicit conversion applied to
`nodes[pos].dist_mm_q2` and `nodes[pos].angle_z_q14` before the float
arithmetic of lines 250-251, and the rounding of an integer-valued product. -/
def f32OfNat (n : Nat) : Nat :=
  let len := bitLen 64 n
  if len ≤ 24 then n
  else
    let e := len - 24
    roundHalfEven n (2 ^ e) * 2 ^ e

/-- A non-negative binary32 value, kept as the exact fraction `num / den` it denotes. -/
structure F32 where
  num : Nat
  den : Nat
  deriving DecidableEq, Repr

/-- The rational number denoted by a float value. -/
def F32.toRat (x : F32) : ℚ := (x.num : ℚ) / (x.den : ℚ)

/-- Line 250: `float distance = nodes[pos].dist_mm_q2 / 4.0f;`.  The operand is
converted to binary32 first; dividing a binary32 value by the power of two `4`
only lowers the exponent and is exact. -/
def distance (n : Node) : F32 := ⟨f32OfNat n.dist_mm_q2, 4⟩

/-- Line 251: `float angle = (nodes[pos].angle_z_q14 * 90.f) / 16384.f;`.  The
operand is converted to binary32, the product with `90.f` is rounded to
binary32, and the division by the power of two `16384` is exact. -/
def angle (n : Node) : F32 := ⟨f32OfNat (f32OfNat n.angle_z_q14 * 90), 16384⟩

/-- Line 252: `int quality = (nodes[pos].quality >> SL_LIDAR_RESP_MEASUREMENT_QUALITY_SHIFT);`
with the SDK constant taken as the parameter `shift`. -/
def quality (shift : Nat) (n : Node) : Nat := n.quality >>> shift

/-! ## Text rendering (`std::ostringstream`, lines 256-264) -/

/-- Decimal digits of a natural number. -/
def decDigits (n : Nat) : List Char := Nat.toDigits 10 n

/-- Remove trailing `0` characters. -/
def stripZeros (ds : List Char) : List Char :=
  (ds.reverse.dropWhile (fun c => c == '0')).reverse

/-- For `0 < p < q`: the least `k ≥ start` with `q ≤ p * 10 ^ k`, searched for `fuel` steps. -/
def negExp (p q : Nat) : Nat → Nat → Nat
  | 0, k => k
  | fuel + 1, k => if q ≤ p * 10 ^ k then k else negExp p q fuel (k + 1)

/-- Insertion of a `float` into a default-configured output stream
(`oss << distance`, `oss << angle`): general notation with six significant
digits, i.e. the `%g` conversion.  The value is rounded (half to even) to six
significant digits `m`, with decimal exponent `X`; fixed notation is used when
`-4 ≤ X < 6`, scientific notation otherwise, and trailing zeros of the
fraction (and a then-empty decimal point) are dropped. -/
def fmtFloat (x : F32) : String :=
  let p := x.num
  let q := x.den
  if p = 0 ∨ q = 0 then "0"
  else
    let e : Int :=
      if q ≤ p then (((decDigits (p / q)).length - 1 : Nat) : Int)
      else - ((negExp p q (decDigits q).length 1 : Nat) : Int)
    let m0 :=
      if e ≤ 5 then roundHalfEven (p * 10 ^ (5 - e).toNat) q
      else roundHalfEven p (q * 10 ^ (e - 5).toNat)
    let m := if m0 = 10 ^ 6 then 10 ^ 5 else m0
    let X : Int := if m0 = 10 ^ 6 then e + 1 else e
    let ds := decDigits m
    if -4 ≤ X ∧ X < 6 then
      if 0 ≤ X then
        let fp := stripZeros (ds.drop (X.toNat + 1))
        String.mk (ds.take (X.toNat + 1) ++ (if fp = [] then [] else '.' :: fp))
      else
        String.mk ('0' :: '.' :: (List.replicate ((-X).toNat - 1) '0' ++ stripZeros ds))
    else
      let fp := stripZeros (ds.drop 1)
      let ex := X.natAbs
      String.mk (ds.take 1 ++ (if fp = [] then [] else '.' :: fp)
        ++ ['e', if X < 0 then '-' else '+']
        ++ (if ex < 10 then ['0'] else []) ++ decDigits ex)

/-- Insertion of an `int` into the stream (`oss << quality`); the value is never negative here. -/
def fmtInt (n : Nat) : String := String.mk (decDigits n)

/-- Lines 256-264: the text built in `oss` for one sample. -/
def jsonStr (shift : Nat) (n : Node) : String :=
  "\x7b" ++ "\"type\":\"LIDAR\"," ++ "\"distance\":" ++ fmtFloat (distance n) ++ ","
    ++ "\"angle\":" ++ fmtFloat (angle n) ++ ","
    ++ "\"quality\":" ++ fmtInt (quality shift n)
    ++ "\x7d"

/-! ## External calls and their trace -/

/-- Modelled from the spec: the Transport Selector handed to `connect`, as built
by `createSerialPortChannel(path, speed)` / `createUdpChannel(host, port)`
(both declared in the SDK headers, not under `src/`); both take the first
operand as a `std::string`. -/
inductive Channel where
  | serial (path : String) (baud : Nat)
  | udp (host : String) (port : Nat)
  deriving DecidableEq, Repr

/-- Modelled from the spec: the device health enumeration `{Good, Warning, Error}`
(the SDK constants `SL_LIDAR_STATUS_*` are declared outside `src/`). -/
inductive HealthStatus where
  | Good
  | Warning
  | Error
  deriving DecidableEq, Repr

/-- Every externally visible call made by the program, in the order made. -/
inductive Event where
  | print_usage (progName : Option String)
  | createLidarDriver (ok : Bool)
  | createChannel (ch : Channel)
  | connect (ch : Channel) (ok : Bool)
  | getDeviceInfo (ok : Bool)
  | getHealth (ok : Bool) (status : HealthStatus)
  | deleteDriver
  | signal
  | setMotorSpeed (speed : Option Nat)
  | WSAStartup (result : Int)
  | socket (fd : Int)
  | inet_pton (ip : String) (ok : Bool)
  | closeSocket (fd : Int)
  | WSACleanup
  | startScan
  | grabScanDataHq (ok : Bool) (count : Nat)
  | ascendScanData (count : Nat)
  | udpSend (message : String)
  | sendto (fd : Int) (message : String) (result : Int)
  | stop
  | delay (ms : Nat)
  deriving DecidableEq, Repr

/-- The environment of one run: everything `main.cpp` and `UdpSender.cpp` call
but do not define (scanner driver, SDK constants, C library, sockets), taken
as parameters.  A driver result is reduced to whether `SL_IS_OK` holds of it.
Every oracle that stands for a call sees the trace of all earlier calls, so
repeated calls may be answered differently. -/
structure Env where
  /-- Whether the build defines `_WIN32`. -/
  win32 : Bool
  /-- The SDK constant `SL_LIDAR_RESP_MEASUREMENT_QUALITY_SHIFT`. -/
  qualityShift : Nat
  /-- The C library `strtoul(s, NULL, 10)`. -/
  strtoul : String → Nat
  /-- Whether `createLidarDriver` yields a non-null driver. -/
  createLidarDriver : Bool
  connect : List Event → Channel → Bool
  getDeviceInfo : List Event → Bool
  getHealth : List Event → Bool × HealthStatus
  /-- Outcome of `grabScanDataHq(nodes, count)` for a buffer of the given
  capacity: success, the updated `count`, and the buffer contents. -/
  grabScanDataHq : List Event → Nat → Bool × Nat × (Nat → Node)
  /-- In-place reordering `ascendScanData(nodes, count)`. -/
  ascendScanData : List Event → (Nat → Node) → Nat → (Nat → Node)
  WSAStartup : List Event → Int
  socket : List Event → Int
  /-- Text-to-address conversion: the address, or `none` when the text is rejected. -/
  inet_pton : String → Option Nat
  sendto : List Event → Int → String → Int

/-! ## `UdpSender` (UdpSender.h, UdpSender.cpp) -/

/-- `UdpSender.h` line 14. -/
def INVALID_SOCKET : Int := -1

/-- `UdpSender.h` line 15. -/
def SOCKET_ERROR : Int := -1

/-- The `sockaddr_in` destination record (family `AF_INET` throughout; the port
is kept in host order). -/
structure SockAddr where
  sin_port : Nat
  sin_addr : Nat
  deriving DecidableEq, Repr

/-- Data members of `UdpSender`; `m_remoteAddr` is `none` until `init` fills it. -/
structure UdpSender where
  m_ip : String
  m_port : Nat
  m_socket : Int
  m_remoteAddr : Option SockAddr
  deriving DecidableEq, Repr

/-- Constructor, `UdpSender.cpp` lines 5-8. -/
def UdpSender.new (ip : String) (port : Nat) : UdpSender :=
  { m_ip := ip, m_port := port, m_socket := INVALID_SOCKET, m_remoteAddr := none }

/-- `UdpSender::closeSocket`, lines 64-74. -/
def UdpSender.closeSocket (E : Env) (s : UdpSender) (t : List Event) : UdpSender × List Event :=
  if s.m_socket ≠ INVALID_SOCKET then
    ({ s with m_socket := INVALID_SOCKET },
      if E.win32 then t ++ [Event.closeSocket s.m_socket, Event.WSACleanup]
      else t ++ [Event.closeSocket s.m_socket])
  else (s, t)

/-- `UdpSender::init`, lines 14-43.  The value returned by `inet_pton` /
`InetPtonA` is discarded by the source; a rejected text leaves the zeroed
address in place. -/
def UdpSender.init (E : Env) (s : UdpSender) (t : List Event) : Bool × UdpSender × List Event :=
  if E.win32 = true ∧ E.WSAStartup t ≠ 0 then
    (false, s, t ++ [Event.WSAStartup (E.WSAStartup t)])
  else
    let t1 := if E.win32 then t ++ [Event.WSAStartup (E.WSAStartup t)] else t
    let fd := E.socket t1
    let s1 := { s with m_socket := fd }
    let t2 := t1 ++ [Event.socket fd]
    if fd = INVALID_SOCKET then
      let r := UdpSender.closeSocket E s1 t2
      (false, r.1, r.2)
    else
      let addr : SockAddr := { sin_port := s.m_port, sin_addr := (E.inet_pton s.m_ip).getD 0 }
      (true, { s1 with m_remoteAddr := some addr },
        t2 ++ [Event.inet_pton s.m_ip (E.inet_pton s.m_ip).isSome])

/-- `UdpSender::send`, lines 45-62. -/
def UdpSender.send (E : Env) (s : UdpSender) (message : String) (t : List Event) :
    Bool × List Event :=
  if s.m_socket = INVALID_SOCKET then (false, t)
  else
    let res := E.sendto t s.m_socket message
    if res = SOCKET_ERROR then (false, t ++ [Event.sendto s.m_socket message res])
    else (true, t ++ [Event.sendto s.m_socket message res])

/-- One decimal field of a dotted address: one to three digits, no leading
zero on a longer field, value at most 255. -/
def parseOctet (cs : List Char) : Option Nat :=
  if cs = [] ∨ 3 < cs.length ∨ ¬ cs.all Char.isDigit ∨ (1 < cs.length ∧ cs.head? = some '0') then none
  else
    let v := cs.foldl (fun acc c => acc * 10 + (c.toNat - 48)) 0
    if v ≤ 255 then some v else none

/-- Split a character list at every `.`. -/
def splitDots : List Char → List (List Char)
  | [] => [[]]
  | c :: cs =>
    match splitDots cs with
    | [] => [[c]]
    | w :: ws => if c = '.' then [] :: w :: ws else (c :: w) :: ws

/-- The C library `inet_pton(AF_INET, ...)`: accepts exactly the dotted IPv4
literals `d.d.d.d` and yields the 32-bit address. -/
def inet_pton4 (ip : String) : Option Nat :=
  match (splitDots ip.data).map parseOctet with
  | [some a, some b, some c, some d] => some (((a * 256 + b) * 256 + c) * 256 + d)
  | _ => none

/-! ## `main`: argument parsing (main.cpp lines 78-131) -/

/-- Modelled from the spec: the two transport variants, named by the SDK
constants stored in `opt_channel_type` (declared outside `src/`). -/
inductive ChannelType where
  | CHANNEL_TYPE_SERIALPORT
  | CHANNEL_TYPE_UDP
  deriving DecidableEq, Repr

/-- The option variables of `main` after argument parsing. -/
structure Opts where
  opt_channel_param_first : Option String
  opt_channel_param_second : Nat
  opt_channel_type : ChannelType
  useArgcBaudrate : Bool
  deriving DecidableEq, Repr

/-- Result of lines 92-122: a usage exit, a null pointer handed to `strcmp`
(undefined behaviour), or the parsed options. -/
inductive Parsed where
  | usage
  | nullDeref
  | ok (o : Opts)
  deriving DecidableEq, Repr

/-- Line 82: `sl_u32 baudrateArray[2] = {115200, 256000};`. -/
def baudrateArray : List Nat := [115200, 256000]

/-- Lines 92-122.  `argv` holds the `argc` argument strings; `argv[argc]` is the
null pointer, so `argv.get? i` is `none` exactly there.  `strtoul` yields an
`unsigned long` that is stored into the 32-bit `opt_channel_param_second`. -/
def parseArgs (E : Env) (argv : List String) : Parsed :=
  if argv.length > 1 then
    if argv.get? 1 = some "--channel" then
      match argv.get? 2 with
      | none => Parsed.nullDeref
      | some opt_channel =>
        if opt_channel = "-s" ∨ opt_channel = "--serial" then
          Parsed.ok
            { opt_channel_param_first := argv.get? 3
              opt_channel_param_second :=
                if argv.length > 4 then E.strtoul (argv.getD 4 "") % 2 ^ 32 else 0
              opt_channel_type := ChannelType.CHANNEL_TYPE_SERIALPORT
              useArgcBaudrate := true }
        else if opt_channel = "-u" ∨ opt_channel = "--udp" then
          Parsed.ok
            { opt_channel_param_first := argv.get? 3
              opt_channel_param_second :=
                if argv.length > 4 then E.strtoul (argv.getD 4 "") % 2 ^ 32 else 0
              opt_channel_type := ChannelType.CHANNEL_TYPE_UDP
              useArgcBaudrate := false }
        else Parsed.usage
    else Parsed.usage
  else Parsed.usage

/-- Lines 124-131: the default serial port when none was given. -/
def defaultPort (E : Env) (o : Opts) : Opts :=
  if o.opt_channel_type = ChannelType.CHANNEL_TYPE_SERIALPORT ∧ o.opt_channel_param_first = none then
    let port := if E.win32 then "\\\\.\\com3" else "/dev/ttyUSB0"
    { o with opt_channel_param_first := some port }
  else o

/-! ## `main`: connecting (lines 140-184) -/

/-- One connect attempt: create the channel, `connect`, and on success
`getDeviceInfo` (lines 149-155, 161-166, 177-183). -/
def tryConnect (E : Env) (ch : Channel) (t : List Event) : Bool × List Event :=
  let t1 := t ++ [Event.createChannel ch]
  if E.connect t1 ch then
    let t2 := t1 ++ [Event.connect ch true]
    if E.getDeviceInfo t2 then (true, t2 ++ [Event.getDeviceInfo true])
    else (false, t2 ++ [Event.getDeviceInfo false])
  else (false, t1 ++ [Event.connect ch false])

/-- Lines 159-173: the loop over `baudrateArray`, leaving at the first success. -/
def baudrateLoop (E : Env) (path : String) : List Nat → List Event → Bool × List Event
  | [], t => (false, t)
  | b :: rest, t =>
    let r := tryConnect E (Channel.serial path b) t
    if r.1 then r else baudrateLoop E path rest r.2

/-- Lines 142-184: computes `connectSuccess`.  The channel constructors take
`opt_channel_param_first` as a `std::string`; when that pointer is null (a
network selection without a host; a serial selection always has its default
port by now) the conversion aborts the run before any channel exists, which
is the result `none`. -/
def connectPhase (E : Env) (o : Opts) (t : List Event) : Option (Bool × List Event) :=
  match o.opt_channel_param_first with
  | none => none
  | some first =>
    match o.opt_channel_type with
    | ChannelType.CHANNEL_TYPE_SERIALPORT =>
      if o.useArgcBaudrate then
        some (tryConnect E (Channel.serial first o.opt_channel_param_second) t)
      else
        some (baudrateLoop E first baudrateArray t)
    | ChannelType.CHANNEL_TYPE_UDP =>
      some (tryConnect E (Channel.udp first o.opt_channel_param_second) t)

/-- `checkSLAMTECLIDARHealth`, lines 51-69. -/
def checkSLAMTECLIDARHealth (E : Env) (t : List Event) : Bool × List Event :=
  let r := E.getHealth t
  if r.1 then
    if r.2 = HealthStatus.Error then (false, t ++ [Event.getHealth true r.2])
    else (true, t ++ [Event.getHealth true r.2])
  else (false, t ++ [Event.getHealth false r.2])

/-! ## `main`: the acquisition loop (lines 241-272) -/

/-- Where control stands inside `while (!ctrl_c_pressed.load()) { ... }`. -/
inductive Pc where
  /-- About to evaluate the loop condition (line 241). -/
  | top
  /-- Condition read as false; about to call `grabScanDataHq` (line 245). -/
  | grab
  /-- Inside `for (pos = 0; pos < count; ++pos)` (line 249) over the reordered buffer. -/
  | proc (nodes : Nat → Node) (count : Nat) (pos : Nat)
  /-- The loop has been left; line 275 is next. -/
  | done

/-- State of the loop: the flag `ctrl_c_pressed`, the control point, the
sender and the trace so far. -/
structure LoopState where
  ctrl_c_pressed : Bool
  pc : Pc
  udpSender : UdpSender
  trace : List Event

/-- What happens next: the signal handler `ctrlc` runs (line 72), or the
program performs its next action. -/
inductive Input where
  | sigint
  | tick
  deriving DecidableEq, Repr

/-- Capacity of the buffer `nodes[8192]` (lines 242-243). -/
def nodesCapacity : Nat := 8192

/-- One step of the loop of lines 241-272. -/
def step (E : Env) (i : Input) (s : LoopState) : LoopState :=
  match i with
  | Input.sigint => { s with ctrl_c_pressed := true }
  | Input.tick =>
    match s.pc with
    | Pc.top => if s.ctrl_c_pressed then { s with pc := Pc.done } else { s with pc := Pc.grab }
    | Pc.grab =>
      let r := E.grabScanDataHq s.trace nodesCapacity
      let t1 := s.trace ++ [Event.grabScanDataHq r.1 r.2.1]
      if r.1 then
        { s with
          pc := Pc.proc (E.ascendScanData t1 r.2.2 r.2.1) r.2.1 0
          trace := t1 ++ [Event.ascendScanData r.2.1] }
      else { s with pc := Pc.top, trace := t1 }
    | Pc.proc nodes count pos =>
      if pos < count then
        let msg := jsonStr E.qualityShift (nodes pos)
        { s with
          pc := Pc.proc nodes count (pos + 1)
          trace := (UdpSender.send E s.udpSender msg (s.trace ++ [Event.udpSend msg])).2 }
      else { s with pc := Pc.top }
    | Pc.done => s

/-- Run the loop along a schedule of inputs. -/
def run (E : Env) : List Input → LoopState → LoopState
  | [], s => s
  | i :: is, s => run E is (step E i s)

/-! ## `main` (lines 75-287) -/

/-- How a run of `main` ends. -/
inductive Outcome where
  /-- The function returned `status`. -/
  | exited (status : Int) (trace : List Event)
  /-- A null pointer was used as a string and the run broke off: `argv[2]`
  passed to `strcmp` (line 101), or `opt_channel_param_first` converted to the
  `std::string` argument of `createUdpChannel` (line 177). -/
  | nullDeref (trace : List Event)
  /-- The schedule ended while the acquisition loop was still running. -/
  | running (trace : List Event)
  deriving DecidableEq, Repr

/-- The trace of an outcome. -/
def Outcome.trace : Outcome → List Event
  | Outcome.exited _ t => t
  | Outcome.nullDeref t => t
  | Outcome.running t => t

/-- Destructor of the local `udpSender` at the end of `main`. -/
def destroySender (E : Env) (u : UdpSender) (t : List Event) : List Event :=
  (UdpSender.closeSocket E u t).2

/-- Lines 274-286: what `main` does once the loop has been left: `stop`, the
settling delay, the motor stop on a serial channel, release of the driver,
`return 0` (and the destructor of `udpSender`). -/
def finish (E : Env) (o : Opts) (s : LoopState) : Outcome :=
  let t3 := s.trace ++ [Event.stop, Event.delay 200]
  let t4 :=
    if o.opt_channel_type = ChannelType.CHANNEL_TYPE_SERIALPORT then t3 ++ [Event.setMotorSpeed (some 0)]
    else t3
  Outcome.exited 0 (destroySender E s.udpSender (t4 ++ [Event.deleteDriver]))

/-- The loop state on entry to the loop (line 241), right after `startScan` (line 238). -/
def loopStart (u : UdpSender) (t : List Event) : LoopState :=
  { ctrl_c_pressed := false, pc := Pc.top, udpSender := u, trace := t ++ [Event.startScan] }

/-- Lines 218-287: from installing the signal handler to `return 0`. -/
def session (E : Env) (o : Opts) (sched : List Input) (t : List Event) : Outcome :=
  let t1 := t ++ [Event.signal]
  let t2 :=
    if o.opt_channel_type = ChannelType.CHANNEL_TYPE_SERIALPORT then t1 ++ [Event.setMotorSpeed none]
    else t1
  let r := UdpSender.init E (UdpSender.new "10.35.194.214" 7000) t2
  if r.1 = false then
    Outcome.exited 0 (destroySender E r.2.1 (r.2.2 ++ [Event.deleteDriver]))
  else
    let s := run E sched (loopStart r.2.1 r.2.2)
    match s.pc with
    | Pc.done => finish E o s
    | _ => Outcome.running s.trace

/-- The function `main`, lines 75-287, run on the argument vector `argv`
against the environment `E`, with `sched` ordering signal deliveries and
program steps during the acquisition loop. -/
def main (E : Env) (argv : List String) (sched : List Input) : Outcome :=
  match parseArgs E argv with
  | Parsed.usage => Outcome.exited (-1) [Event.print_usage (argv.get? 0)]
  | Parsed.nullDeref => Outcome.nullDeref []
  | Parsed.ok o0 =>
    let o := defaultPort E o0
    if E.createLidarDriver = false then Outcome.exited (-2) [Event.createLidarDriver false]
    else
      match connectPhase E o [Event.createLidarDriver true] with
      | none => Outcome.nullDeref [Event.createLidarDriver true]
      | some c =>
        if c.1 = false then Outcome.exited (-3) (c.2 ++ [Event.deleteDriver])
        else
          let h := checkSLAMTECLIDARHealth E c.2
          if h.1 = false then Outcome.exited (-4) (h.2 ++ [Event.deleteDriver])
          else session E o sched h.2

/-! ## Classification of trace events -/

/-- Calls made while allocating the driver and connecting (lines 134-184). -/
def Event.isConnect : Event → Bool
  | Event.createLidarDriver _ => true
  | Event.createChannel _ => true
  | Event.connect _ _ => true
  | Event.getDeviceInfo _ => true
  | _ => false

/-- Calls made inside the acquisition loop (lines 241-272). -/
def Event.isLoop : Event → Bool
  | Event.grabScanDataHq _ _ => true
  | Event.ascendScanData _ => true
  | Event.udpSend _ => true
  | Event.sendto _ _ _ => true
  | _ => false

/-- Calls made by `UdpSender::init` and `UdpSender::closeSocket`. -/
def Event.isSocketSetup : Event → Bool
  | Event.WSAStartup _ => true
  | Event.socket _ => true
  | Event.inet_pton _ _ => true
  | Event.closeSocket _ => true
  | Event.WSACleanup => true
  | _ => false

/-- Calls made from line 218 on, after the health check has passed. -/
def Event.isSession (e : Event) : Bool :=
  e.isLoop || e.isSocketSetup ||
    match e with
    | Event.signal => true
    | Event.setMotorSpeed _ => true
    | Event.startScan => true
    | Event.stop => true
    | Event.delay _ => true
    | Event.deleteDriver => true
    | _ => false

/-- The messages passed to `udpSender.send`, in order. -/
def sendCalls : List Event → List String
  | [] => []
  | Event.udpSend m :: t => m :: sendCalls t
  | _ :: t => sendCalls t

/-- Number of `grabScanDataHq` calls in a trace. -/
def grabCount : List Event → Nat
  | [] => 0
  | Event.grabScanDataHq _ _ :: t => grabCount t + 1
  | _ :: t => grabCount t

/-- Number of `ascendScanData` calls in a trace. -/
def ascendCount : List Event → Nat
  | [] => 0
  | Event.ascendScanData _ :: t => ascendCount t + 1
  | _ :: t => ascendCount t

/-- Number of program steps in a schedule. -/
def ticks : List Input → Nat
  | [] => 0
  | Input.tick :: is => ticks is + 1
  | Input.sigint :: is => ticks is

/-- Whether the next program step is the call of `grabScanDataHq`. -/
def pendingGrab (s : LoopState) : Nat :=
  match s.pc with
  | Pc.grab => 1
  | _ => 0

/-- Number of program steps after which a loop whose flag is set has left the
loop: the rest of the iteration in progress, then the loop condition. -/
def stepsToDone (E : Env) (s : LoopState) : Nat :=
  match s.pc with
  | Pc.top => 1
  | Pc.grab =>
    if (E.grabScanDataHq s.trace nodesCapacity).1 then
      (E.grabScanDataHq s.trace nodesCapacity).2.1 + 3
    else 2
  | Pc.proc _ count pos => (count - pos) + 2
  | Pc.done => 0

/-- The messages for the samples `pos, pos + 1, ..., pos + k - 1` of a buffer. -/
def messagesFrom (shift : Nat) (nodes : Nat → Node) (pos k : Nat) : List String :=
  (List.range' pos k).map (fun i => jsonStr shift (nodes i))

/-- The count of a buffer being processed does not exceed `bound`. -/
def countBounded (bound : Nat) (s : LoopState) : Prop :=
  match s.pc with
  | Pc.proc _ count _ => count ≤ bound
  | _ => True

/-! ## Reference environments -/

/-- The C library `strtoul(s, NULL, 10)` for a 64-bit `unsigned long`: leading
white space is skipped, one sign is accepted, the longest run of decimal
digits is read; a value above `ULONG_MAX` yields `ULONG_MAX`, a minus sign
negates modulo `2^64`, and text without digits yields 0. -/
def strtoulDec (s : String) : Nat :=
  let cs := s.data.dropWhile
    (fun c => c == ' ' || c == '\t' || c == '\n' || c == '\r' || c.toNat == 11 || c.toNat == 12)
  let neg := cs.head? = some '-'
  let ds := if cs.head? = some '-' ∨ cs.head? = some '+' then cs.drop 1 else cs
  let v := (ds.takeWhile Char.isDigit).foldl (fun acc c => acc * 10 + (c.toNat - 48)) 0
  if 2 ^ 64 - 1 < v then 2 ^ 64 - 1
  else if neg then (2 ^ 64 - v) % 2 ^ 64
  else v

/-- A healthy device on a non-Windows build: the driver is allocated, every
connect and query succeeds, health is `Good`, every grab succeeds with the
two samples `(0, 400, 0x40)` and `(8192, 401, 0x40)`, socket `3` is
allocated and every transmit succeeds. -/
def envGood : Env :=
  { win32 := false
    qualityShift := 6
    strtoul := strtoulDec
    createLidarDriver := true
    connect := fun _ _ => true
    getDeviceInfo := fun _ => true
    getHealth := fun _ => (true, HealthStatus.Good)
    grabScanDataHq := fun _ _ =>
      (true, 2, fun i => { angle_z_q14 := 8192 * i, dist_mm_q2 := 400 + i, quality := 64 })
    ascendScanData := fun _ nodes _ => nodes
    WSAStartup := fun _ => 0
    socket := fun _ => 3
    inet_pton := inet_pton4
    sendto := fun _ _ message => message.length }

/-- The loop state of `envGood` with the flag set while the call of
`grabScanDataHq` is about to be made. -/
def stateInFlight : LoopState :=
  { ctrl_c_pressed := true
    pc := Pc.grab
    udpSender := { UdpSender.new "10.35.194.214" 7000 with m_socket := 3 }
    trace := [Event.startScan] }

/-- As `envGood`, but every grab fails. -/
def envNoGrab : Env :=
  { envGood with grabScanDataHq := fun _ _ => (false, 0, fun _ => { angle_z_q14 := 0, dist_mm_q2 := 0, quality := 0 }) }

/-- The loop state of `envGood` with the flag set while the first of two
retrieved samples is about to be processed. -/
def stateCancelledMidBuffer : LoopState :=
  { ctrl_c_pressed := true
    pc := Pc.proc (fun i => { angle_z_q14 := 8192 * i, dist_mm_q2 := 400 + i, quality := 64 }) 2 0
    udpSender := { UdpSender.new "10.35.194.214" 7000 with m_socket := 3 }
    trace := [Event.startScan, Event.grabScanDataHq true 2, Event.ascendScanData 2] }

/-- As `envGood`, but the health query reports `Error`. -/
def envHealthError : Env := { envGood with getHealth := fun _ => (true, HealthStatus.Error) }

/-- As `envGood`, but the health query reports `Warning`. -/
def envHealthWarning : Env := { envGood with getHealth := fun _ => (true, HealthStatus.Warning) }

/-- As `envGood`, but the driver accepts a serial channel at 256000 baud only. -/
def envOnly256000 : Env :=
  { envGood with
    connect := fun _ ch =>
      match ch with
      | Channel.serial _ baud => baud == 256000
      | Channel.udp _ _ => false }

/-- As `envGood`, but no device answers: every connect fails. -/
def envNoDevice : Env := { envGood with connect := fun _ _ => false }

/-- As `envGood`, but the driver cannot be allocated. -/
def envNoDriver : Env := { envGood with createLidarDriver := false }

/-- The loop state of `envGood` with the flag clear and the call of
`grabScanDataHq` about to be made. -/
def stateAtGrab : LoopState :=
  { ctrl_c_pressed := false
    pc := Pc.grab
    udpSender := { UdpSender.new "10.35.194.214" 7000 with m_socket := 3 }
    trace := [Event.startScan] }

/-- As `envGood`, but no socket can be allocated. -/
def envNoSocket : Env := { envGood with socket := fun _ => -1 }

/-! ## Lemmas on binary32 rounding -/

theorem bitLen_le (fuel : Nat) : ∀ (k n : Nat), n < 2 ^ k → bitLen fuel n ≤ k := by
  induction fuel with
  | zero => intro k n _; simp [bitLen]
  | succ f ih =>
    intro k n h
    unfold bitLen
    split
    · exact Nat.zero_le _
    · rename_i hn
      cases k with
      | zero => simp at h; exact absurd h hn
      | succ k =>
        have h2 : n / 2 < 2 ^ k := by
          rw [Nat.div_lt_iff_lt_mul (by norm_num)]
          rw [pow_succ] at h; exact h
        have := ih k (n / 2) h2
        omega

theorem f32OfNat_exact (n : Nat) (h : n < 2 ^ 24) : f32OfNat n = n := by
  have := bitLen_le 64 24 n h
  unfold f32OfNat
  simp [this]

theorem f32OfNat_exact_le (n : Nat) (h : n ≤ 2 ^ 24) : f32OfNat n = n := by
  rcases Nat.lt_or_ge n (2 ^ 24) with h1 | h1
  · exact f32OfNat_exact n h1
  · have : n = 2 ^ 24 := le_antisymm h h1
    subst this
    decide

theorem roundHalfEven_near (n m : Nat) (hm : 0 < m) :
    2 * n ≤ 2 * (roundHalfEven n m * m) + m ∧ 2 * (roundHalfEven n m * m) ≤ 2 * n + m := by
  have hdm := Nat.div_add_mod n m
  have hlt := Nat.mod_lt n hm
  have hc : m * (n / m) = n / m * m := Nat.mul_comm _ _
  unfold roundHalfEven
  simp only
  split
  · rename_i hcond
    rw [Nat.add_mul]
    rcases hcond with h1 | ⟨h1, _⟩ <;> omega
  · rename_i hcond
    have h1 : ¬ 2 * (n % m) > m := fun h => hcond (Or.inl h)
    omega

theorem f32OfNat_near (n : Nat) (h : n < 2 ^ 32) :
    n ≤ f32OfNat n + 128 ∧ f32OfNat n ≤ n + 128 := by
  have hb := bitLen_le 64 32 n h
  unfold f32OfNat
  simp only
  split
  · omega
  · rename_i hlen
    have he : bitLen 64 n - 24 ≤ 8 := by omega
    have hp : 2 ^ (bitLen 64 n - 24) ≤ 2 ^ 8 := Nat.pow_le_pow_right (by norm_num) he
    have hpos : 0 < 2 ^ (bitLen 64 n - 24) := by positivity
    have := roundHalfEven_near n (2 ^ (bitLen 64 n - 24)) hpos
    omega

/-! ## Per-sample conversion (C5) -/

/-- C5 (counterexample): for the well-formed raw sample with
`dist_mm_q2 = 16777217 = 2^24 + 1` the distance computed at line 250 is
`16777216 / 4`, not the exact quotient `16777217 / 4`: the 32-bit integer does
not fit the 24-bit significand of `float`. -/
theorem C5_distance_inexact :
    Node.wf { angle_z_q14 := 0, dist_mm_q2 := 16777217, quality := 0 } ∧
    (distance { angle_z_q14 := 0, dist_mm_q2 := 16777217, quality := 0 }).toRat
      = (16777216 : ℚ) / 4 ∧
    (distance { angle_z_q14 := 0, dist_mm_q2 := 16777217, quality := 0 }).toRat
      ≠ ((16777217 : Nat) : ℚ) / 4 := by
  have hd : distance { angle_z_q14 := 0, dist_mm_q2 := 16777217, quality := 0 }
      = { num := 16777216, den := 4 } := by decide
  refine ⟨by decide, ?_, ?_⟩
  · rw [hd]; norm_num [F32.toRat]
  · rw [hd]; norm_num [F32.toRat]

/-- C5 (amended): for every raw sample with a 32-bit distance, a 16-bit angle
and an 8-bit quality, the distance computed at line 250 equals
`dist_mm_q2 / 4` exactly whenever `dist_mm_q2 ≤ 2^24` and is within 32 of it
in every case; the angle computed at line 251 equals
`angle_z_q14 * 90 / 16384` exactly and lies in `[0, 360)`. -/
theorem C5_conversion (n : Node) (h : n.wf) :
    (n.dist_mm_q2 ≤ 2 ^ 24 → (distance n).toRat = (n.dist_mm_q2 : ℚ) / 4) ∧
    |(distance n).toRat - (n.dist_mm_q2 : ℚ) / 4| ≤ 32 ∧
    (angle n).toRat = (n.angle_z_q14 : ℚ) * 90 / 16384 ∧
    0 ≤ (angle n).toRat ∧ (angle n).toRat < 360 := by
  obtain ⟨ha, hd, _⟩ := h
  have hang : f32OfNat (f32OfNat n.angle_z_q14 * 90) = n.angle_z_q14 * 90 := by
    rw [f32OfNat_exact n.angle_z_q14 (by omega)]
    exact f32OfNat_exact _ (by omega)
  have haq : (n.angle_z_q14 : ℚ) < 65536 := by exact_mod_cast ha
  refine ⟨?_, ?_, ?_, ?_, ?_⟩
  · intro hle
    simp [distance, F32.toRat, f32OfNat_exact_le _ hle]
  · obtain ⟨h1, h2⟩ := f32OfNat_near n.dist_mm_q2 hd
    have h1q : (n.dist_mm_q2 : ℚ) ≤ (f32OfNat n.dist_mm_q2 : ℚ) + 128 := by exact_mod_cast h1
    have h2q : (f32OfNat n.dist_mm_q2 : ℚ) ≤ (n.dist_mm_q2 : ℚ) + 128 := by exact_mod_cast h2
    simp only [distance, F32.toRat]
    rw [abs_le]
    constructor <;> push_cast <;> linarith
  · simp [angle, F32.toRat, hang]
  · simp only [angle, F32.toRat, hang]
    positivity
  · simp only [angle, F32.toRat, hang]
    push_cast
    linarith

/-- C5 witness: the sample `(angle 8192, distance 400, quality 0x40)`. -/
theorem C5_conversion_witness :
    Node.wf { angle_z_q14 := 8192, dist_mm_q2 := 400, quality := 64 } ∧
    (distance { angle_z_q14 := 8192, dist_mm_q2 := 400, quality := 64 }).toRat
      = ((400 : Nat) : ℚ) / 4 ∧
    (angle { angle_z_q14 := 8192, dist_mm_q2 := 400, quality := 64 }).toRat
      = ((8192 : Nat) : ℚ) * 90 / 16384 :=
  ⟨by decide,
   (C5_conversion { angle_z_q14 := 8192, dist_mm_q2 := 400, quality := 64 } (by decide)).1
     (by decide),
   (C5_conversion { angle_z_q14 := 8192, dist_mm_q2 := 400, quality := 64 } (by decide)).2.2.1⟩

/-! ## Outbound message (C6) -/

/-- C2 (counterexample): the text `lidar-host` is rejected by the address
parser, yet `init` on a sender for it returns `true` and keeps socket `3`
open when socket allocation succeeds. -/
theorem C2_rejected_address_init_true :
    envGood.inet_pton "lidar-host" = none ∧
    (UdpSender.init envGood (UdpSender.new "lidar-host" 7000) []).1 = true ∧
    (UdpSender.init envGood (UdpSender.new "lidar-host" 7000) []).2.1.m_socket = 3 ∧
    (UdpSender.init envGood (UdpSender.new "lidar-host" 7000) []).2.1.m_socket ≠ INVALID_SOCKET := by
  decide

/-- C2 (amended): for every destination text, accepted by the address parser
or not, `init` returns `false` exactly when the socket library start-up
(Windows build) or the socket allocation fails; after a failed allocation
`m_socket == INVALID_SOCKET`; when `init` returns `true` the allocated socket
stays open and the destination holds the parsed address, or zero for a
rejected text. -/
theorem C2_init_ignores_address (E : Env) (s : UdpSender) (t : List Event) :
    ((UdpSender.init E s t).1 = false ↔
      ((E.win32 = true ∧ E.WSAStartup t ≠ 0) ∨
        E.socket (if E.win32 then t ++ [Event.WSAStartup (E.WSAStartup t)] else t)
          = INVALID_SOCKET)) ∧
    (¬ (E.win32 = true ∧ E.WSAStartup t ≠ 0) →
      E.socket (if E.win32 then t ++ [Event.WSAStartup (E.WSAStartup t)] else t) = INVALID_SOCKET →
      (UdpSender.init E s t).2.1.m_socket = INVALID_SOCKET) ∧
    ((UdpSender.init E s t).1 = true →
      (UdpSender.init E s t).2.1.m_socket
          = E.socket (if E.win32 then t ++ [Event.WSAStartup (E.WSAStartup t)] else t) ∧
      (UdpSender.init E s t).2.1.m_socket ≠ INVALID_SOCKET ∧
      (UdpSender.init E s t).2.1.m_remoteAddr
          = some { sin_port := s.m_port, sin_addr := (E.inet_pton s.m_ip).getD 0 }) := by
  unfold UdpSender.init
  by_cases hw : E.win32 = true ∧ E.WSAStartup t ≠ 0
  · simp only [hw, and_self, ne_eq, not_false_eq_true, if_true, true_or, iff_true, not_true_eq_false,
      false_implies, true_and]
    simp
  · rw [if_neg hw]
    by_cases hs : E.socket (if E.win32 then t ++ [Event.WSAStartup (E.WSAStartup t)] else t)
        = INVALID_SOCKET
    · simp [hs, hw, UdpSender.closeSocket]
    · simp [hs, hw]

/-- C2 witness: allocation failure in `envNoSocket`, and the rejected text
`lidar-host` in `envGood`. -/
theorem C2_init_ignores_address_witness :
    (UdpSender.init envNoSocket (UdpSender.new "lidar-host" 7000) []).2.1.m_socket = INVALID_SOCKET ∧
    (UdpSender.init envGood (UdpSender.new "lidar-host" 7000) []).2.1.m_remoteAddr
      = some { sin_port := 7000, sin_addr := 0 } :=
  ⟨(C2_init_ignores_address envNoSocket (UdpSender.new "lidar-host" 7000) []).2.1
      (by decide) (by decide),
   ((C2_init_ignores_address envGood (UdpSender.new "lidar-host" 7000) []).2.2 (by decide)).2.2⟩

theorem tryConnect_trace (E : Env) (ch : Channel) (t : List Event) :
    ∃ rest, (tryConnect E ch t).2 = t ++ rest ∧ ∀ e ∈ rest, e.isConnect = true := by
  unfold tryConnect
  simp only
  split
  · split
    · exact ⟨[Event.createChannel ch, Event.connect ch true, Event.getDeviceInfo true],
        by simp, by simp [Event.isConnect]⟩
    · exact ⟨[Event.createChannel ch, Event.connect ch true, Event.getDeviceInfo false],
        by simp, by simp [Event.isConnect]⟩
  · exact ⟨[Event.createChannel ch, Event.connect ch false], by simp, by simp [Event.isConnect]⟩

theorem baudrateLoop_trace (E : Env) (path : String) (bs : List Nat) :
    ∀ t, ∃ rest, (baudrateLoop E path bs t).2 = t ++ rest ∧ ∀ e ∈ rest, e.isConnect = true := by
  induction bs with
  | nil => intro t; exact ⟨[], by simp [baudrateLoop], by simp⟩
  | cons b bs ih =>
    intro t
    obtain ⟨r1, h1, h1c⟩ := tryConnect_trace E (Channel.serial path b) t
    unfold baudrateLoop
    simp only
    split
    · exact ⟨r1, h1, h1c⟩
    · obtain ⟨r2, h2, h2c⟩ := ih (tryConnect E (Channel.serial path b) t).2
      refine ⟨r1 ++ r2, ?_, ?_⟩
      · rw [h2, h1, List.append_assoc]
      · intro e he
        rcases List.mem_append.mp he with h | h
        · exact h1c e h
        · exact h2c e h

theorem connectPhase_trace (E : Env) (o : Opts) (t : List Event) (c : Bool × List Event)
    (h : connectPhase E o t = some c) :
    ∃ rest, c.2 = t ++ rest ∧ ∀ e ∈ rest, e.isConnect = true := by
  unfold connectPhase at h
  cases hf : o.opt_channel_param_first with
  | none => rw [hf] at h; cases h
  | some first =>
    rw [hf] at h
    simp only at h
    cases ht : o.opt_channel_type with
    | CHANNEL_TYPE_SERIALPORT =>
      rw [ht] at h
      simp only at h
      by_cases hb : o.useArgcBaudrate = true
      · rw [if_pos hb] at h
        injection h with h; subst h
        exact tryConnect_trace _ _ _
      · rw [if_neg hb] at h
        injection h with h; subst h
        exact baudrateLoop_trace _ _ _ _
    | CHANNEL_TYPE_UDP =>
      rw [ht] at h
      simp only at h
      injection h with h; subst h
      exact tryConnect_trace _ _ _

theorem closeSocket_trace (E : Env) (u : UdpSender) (t : List Event) :
    ∃ rest, (UdpSender.closeSocket E u t).2 = t ++ rest ∧ ∀ e ∈ rest, e.isSocketSetup = true := by
  unfold UdpSender.closeSocket
  split
  · split
    · exact ⟨[Event.closeSocket u.m_socket, Event.WSACleanup], by simp, by simp [Event.isSocketSetup]⟩
    · exact ⟨[Event.closeSocket u.m_socket], by simp, by simp [Event.isSocketSetup]⟩
  · exact ⟨[], by simp, by simp⟩

theorem init_trace (E : Env) (u : UdpSender) (t : List Event) :
    ∃ rest, (UdpSender.init E u t).2.2 = t ++ rest ∧ ∀ e ∈ rest, e.isSocketSetup = true := by
  unfold UdpSender.init
  by_cases hw : E.win32 = true ∧ E.WSAStartup t ≠ 0
  · rw [if_pos hw]
    exact ⟨[Event.WSAStartup (E.WSAStartup t)], by simp, by simp [Event.isSocketSetup]⟩
  · rw [if_neg hw]
    simp only
    generalize ht1 : (if E.win32 = true then t ++ [Event.WSAStartup (E.WSAStartup t)] else t) = t1
    have h1 : ∃ r1, t1 = t ++ r1 ∧ ∀ e ∈ r1, e.isSocketSetup = true := by
      subst ht1
      split
      · exact ⟨[Event.WSAStartup (E.WSAStartup t)], rfl, by simp [Event.isSocketSetup]⟩
      · exact ⟨[], by simp, by simp⟩
    obtain ⟨r1, rfl, hr1⟩ := h1
    by_cases hs : E.socket (t ++ r1) = INVALID_SOCKET
    · rw [if_pos hs]
      obtain ⟨r, hr, hrc⟩ := closeSocket_trace E { u with m_socket := E.socket (t ++ r1) }
        (t ++ r1 ++ [Event.socket (E.socket (t ++ r1))])
      refine ⟨r1 ++ [Event.socket (E.socket (t ++ r1))] ++ r, ?_, ?_⟩
      · show (UdpSender.closeSocket E { u with m_socket := E.socket (t ++ r1) }
            (t ++ r1 ++ [Event.socket (E.socket (t ++ r1))])).2 = _
        rw [hr]
        simp only [List.append_assoc]
      · intro e he
        simp only [List.mem_append, List.mem_singleton] at he
        rcases he with (h | h) | h
        · exact hr1 e h
        · subst h; rfl
        · exact hrc e h
    · rw [if_neg hs]
      refine ⟨r1 ++ [Event.socket (E.socket (t ++ r1)),
        Event.inet_pton u.m_ip (E.inet_pton u.m_ip).isSome], ?_, ?_⟩
      · simp
      · intro e he
        simp only [List.mem_append, List.mem_cons, List.mem_singleton, List.not_mem_nil,
          or_false] at he
        rcases he with h | h | h
        · exact hr1 e h
        · subst h; rfl
        · subst h; rfl

theorem send_trace (E : Env) (u : UdpSender) (m : String) (t : List Event) :
    ∃ rest, (UdpSender.send E u m t).2 = t ++ rest ∧
      (∀ e ∈ rest, ∃ r, e = Event.sendto u.m_socket m r) ∧ rest.length ≤ 1 := by
  unfold UdpSender.send
  split
  · exact ⟨[], by simp, by simp, by simp⟩
  · simp only
    split <;> exact ⟨[Event.sendto u.m_socket m (E.sendto t u.m_socket m)], by simp, by simp, by simp⟩

/-! ## Counting calls in a trace -/

theorem sendCalls_append (a b : List Event) : sendCalls (a ++ b) = sendCalls a ++ sendCalls b := by
  induction a with
  | nil => rfl
  | cons e a ih => cases e <;> simp [sendCalls, ih]

theorem grabCount_append (a b : List Event) : grabCount (a ++ b) = grabCount a + grabCount b := by
  induction a with
  | nil => simp [grabCount]
  | cons e a ih =>
    cases e
    all_goals simp [grabCount, ih]
    all_goals omega

theorem ascendCount_append (a b : List Event) :
    ascendCount (a ++ b) = ascendCount a + ascendCount b := by
  induction a with
  | nil => simp [ascendCount]
  | cons e a ih =>
    cases e
    all_goals simp [ascendCount, ih]
    all_goals omega

theorem send_counts (E : Env) (u : UdpSender) (m : String) (t : List Event) :
    sendCalls (UdpSender.send E u m t).2 = sendCalls t ∧
    grabCount (UdpSender.send E u m t).2 = grabCount t ∧
    ascendCount (UdpSender.send E u m t).2 = ascendCount t := by
  unfold UdpSender.send
  split
  · simp
  · simp only
    split <;> simp [sendCalls_append, grabCount_append, ascendCount_append, sendCalls, grabCount,
      ascendCount]

theorem send_isLoop (E : Env) (u : UdpSender) (m : String) (t : List Event) :
    ∃ rest, (UdpSender.send E u m (t ++ [Event.udpSend m])).2 = t ++ rest ∧
      ∀ e ∈ rest, e.isLoop = true := by
  obtain ⟨r, hr, hrc, _⟩ := send_trace E u m (t ++ [Event.udpSend m])
  refine ⟨Event.udpSend m :: r, by simp [hr], ?_⟩
  intro e he
  rcases List.mem_cons.mp he with h | h
  · subst h; rfl
  · obtain ⟨x, hx⟩ := hrc e h
    subst hx; rfl

/-! ## The acquisition loop, step by step -/

theorem step_sigint (E : Env) (s : LoopState) :
    step E Input.sigint s = { s with ctrl_c_pressed := true } := rfl

theorem step_trace (E : Env) (i : Input) (s : LoopState) :
    (step E i s).udpSender = s.udpSender ∧
    ∃ rest, (step E i s).trace = s.trace ++ rest ∧ ∀ e ∈ rest, e.isLoop = true := by
  cases i with
  | sigint => exact ⟨rfl, [], by simp [step], by simp⟩
  | tick =>
    cases hpc : s.pc with
    | top =>
      simp only [step, hpc]
      split <;> exact ⟨rfl, [], by simp, by simp⟩
    | grab =>
      simp only [step, hpc]
      split
      · exact ⟨rfl, [Event.grabScanDataHq (E.grabScanDataHq s.trace nodesCapacity).1
            (E.grabScanDataHq s.trace nodesCapacity).2.1,
          Event.ascendScanData (E.grabScanDataHq s.trace nodesCapacity).2.1],
          by simp, by simp [Event.isLoop]⟩
      · exact ⟨rfl, [Event.grabScanDataHq (E.grabScanDataHq s.trace nodesCapacity).1
            (E.grabScanDataHq s.trace nodesCapacity).2.1], rfl, by simp [Event.isLoop]⟩
    | proc nodes count pos =>
      simp only [step, hpc]
      split
      · exact ⟨rfl, send_isLoop E _ _ _⟩
      · exact ⟨rfl, [], by simp, by simp⟩
    | done => exact ⟨by simp [step, hpc], [], by simp [step, hpc], by simp⟩

theorem run_trace (E : Env) (is : List Input) :
    ∀ s, (run E is s).udpSender = s.udpSender ∧
      ∃ rest, (run E is s).trace = s.trace ++ rest ∧ ∀ e ∈ rest, e.isLoop = true := by
  induction is with
  | nil => intro s; exact ⟨rfl, [], by simp [run], by simp⟩
  | cons i is ih =>
    intro s
    obtain ⟨hu1, r1, h1, h1c⟩ := step_trace E i s
    obtain ⟨hu2, r2, h2, h2c⟩ := ih (step E i s)
    refine ⟨by simp [run, hu2, hu1], r1 ++ r2, by simp [run, h2, h1], ?_⟩
    intro e he
    rcases List.mem_append.mp he with h | h
    · exact h1c e h
    · exact h2c e h

theorem run_append (E : Env) (is js : List Input) :
    ∀ s, run E (is ++ js) s = run E js (run E is s) := by
  induction is with
  | nil => intro s; rfl
  | cons i is ih => intro s; simp [run, ih]

theorem ticks_split (k : Nat) : ∀ (is : List Input), k ≤ ticks is →
    ∃ is1 is2, is = is1 ++ is2 ∧ ticks is1 = k := by
  induction k with
  | zero => intro is _; exact ⟨[], is, rfl, rfl⟩
  | succ k ih =>
    intro is
    induction is with
    | nil => intro h; simp [ticks] at h
    | cons i is ihis =>
      intro h
      cases i with
      | sigint =>
        obtain ⟨a, b, hab, ha⟩ := ihis (by simpa [ticks] using h)
        exact ⟨Input.sigint :: a, b, by simp [hab], by simpa [ticks] using ha⟩
      | tick =>
        obtain ⟨a, b, hab, ha⟩ := ih is (by simpa [ticks] using h)
        exact ⟨Input.tick :: a, b, by simp [hab], by simp [ticks, ha]⟩

theorem ticks_append (a b : List Input) : ticks (a ++ b) = ticks a + ticks b := by
  induction a with
  | nil => simp [ticks]
  | cons i a ih =>
    cases i
    all_goals simp [ticks, ih]
    all_goals omega

theorem step_tick_flag (E : Env) (s : LoopState) (b : Bool) (h : s.pc ≠ Pc.top) :
    (step E Input.tick { s with ctrl_c_pressed := b }).pc = (step E Input.tick s).pc ∧
    (step E Input.tick { s with ctrl_c_pressed := b }).trace = (step E Input.tick s).trace := by
  cases hpc : s.pc with
  | top => exact absurd hpc h
  | grab =>
    simp only [step, hpc]
    split <;> exact ⟨rfl, rfl⟩
  | proc nodes count pos =>
    simp only [step, hpc]
    split <;> exact ⟨rfl, rfl⟩
  | done => simp [step, hpc]

theorem run_zero_ticks (E : Env) (is : List Input) :
    ∀ s, ticks is = 0 → (run E is s).pc = s.pc ∧ (run E is s).trace = s.trace := by
  induction is with
  | nil => intro s _; exact ⟨rfl, rfl⟩
  | cons i is ih =>
    intro s h
    cases i with
    | sigint =>
      have := ih { s with ctrl_c_pressed := true } (by simpa [ticks] using h)
      simpa [run, step] using this
    | tick => simp [ticks] at h

theorem run_one_tick (E : Env) (is : List Input) :
    ∀ s, ticks is = 1 → s.pc ≠ Pc.top →
      (run E is s).pc = (step E Input.tick s).pc ∧
      (run E is s).trace = (step E Input.tick s).trace := by
  induction is with
  | nil => intro s h; simp [ticks] at h
  | cons i is ih =>
    intro s h hpc
    cases i with
    | sigint =>
      have h1 := ih { s with ctrl_c_pressed := true } (by simpa [ticks] using h) hpc
      have h2 := step_tick_flag E s true hpc
      simp only [run, step_sigint]
      exact ⟨h1.1.trans h2.1, h1.2.trans h2.2⟩
    | tick =>
      have := run_zero_ticks E is (step E Input.tick s) (by simpa [ticks] using h)
      simpa [run] using this

theorem run_flag (E : Env) (is : List Input) :
    ∀ s, s.ctrl_c_pressed = true → (run E is s).ctrl_c_pressed = true := by
  induction is with
  | nil => intro s h; exact h
  | cons i is ih =>
    intro s h
    apply ih
    cases i with
    | sigint => rfl
    | tick =>
      cases hpc : s.pc with
      | top => simp [step, hpc, h]
      | grab =>
        simp only [step, hpc]
        split <;> exact h
      | proc nodes count pos =>
        simp only [step, hpc]
        split <;> exact h
      | done => simp [step, hpc, h]

theorem step_grab_balance (E : Env) (i : Input) (s : LoopState) (h : s.ctrl_c_pressed = true) :
    grabCount (step E i s).trace + pendingGrab (step E i s)
      = grabCount s.trace + pendingGrab s := by
  cases i with
  | sigint => rfl
  | tick =>
    cases hpc : s.pc with
    | top => simp [step, hpc, h, pendingGrab]
    | grab =>
      simp only [step, hpc, pendingGrab]
      split <;> simp [grabCount_append, grabCount]
    | proc nodes count pos =>
      simp only [step, hpc, pendingGrab]
      split
      · simp [(send_counts E _ _ _).2.1, grabCount_append, grabCount]
      · simp
    | done => simp [step, hpc, pendingGrab]

theorem run_grab_balance (E : Env) (is : List Input) :
    ∀ s, s.ctrl_c_pressed = true →
      grabCount (run E is s).trace + pendingGrab (run E is s)
        = grabCount s.trace + pendingGrab s := by
  induction is with
  | nil => intro s _; rfl
  | cons i is ih =>
    intro s h
    have h1 := step_grab_balance E i s h
    have h2 := ih (step E i s) (run_flag E [i] s h)
    simp only [run]
    omega

theorem stepsToDone_step (E : Env) (s : LoopState) (h : s.ctrl_c_pressed = true)
    (hpc : s.pc ≠ Pc.done) :
    stepsToDone E (step E Input.tick s) + 1 = stepsToDone E s := by
  cases hp : s.pc with
  | top => simp [step, hp, h, stepsToDone]
  | grab =>
    by_cases hg : (E.grabScanDataHq s.trace nodesCapacity).1 = true
    · simp [step, hp, stepsToDone, hg]
    · simp [step, hp, stepsToDone, hg]
  | proc nodes count pos =>
    by_cases hlt : pos < count
    · simp only [step, hp, stepsToDone, hlt, if_true]
      omega
    · simp only [step, hp, stepsToDone, hlt, if_false]
      omega
  | done => exact absurd hp hpc

theorem stepsToDone_zero (E : Env) (s : LoopState) (h : stepsToDone E s = 0) : s.pc = Pc.done := by
  cases hp : s.pc with
  | top => simp [stepsToDone, hp] at h
  | grab =>
    simp only [stepsToDone, hp] at h
    split at h <;> omega
  | proc nodes count pos => simp [stepsToDone, hp] at h
  | done => rfl

theorem run_done (E : Env) (is : List Input) : ∀ s, s.pc = Pc.done → (run E is s).pc = Pc.done := by
  induction is with
  | nil => intro s h; exact h
  | cons i is ih =>
    intro s h
    apply ih
    cases i with
    | sigint => exact h
    | tick => simp [step, h]

theorem run_exits (E : Env) (is : List Input) :
    ∀ s, s.ctrl_c_pressed = true → stepsToDone E s ≤ ticks is → (run E is s).pc = Pc.done := by
  induction is with
  | nil =>
    intro s _ hk
    exact stepsToDone_zero E s (by simpa [ticks] using hk)
  | cons i is ih =>
    intro s h hk
    cases i with
    | sigint =>
      apply ih { s with ctrl_c_pressed := true } rfl
      simpa [ticks, stepsToDone] using hk
    | tick =>
      by_cases hd : s.pc = Pc.done
      · exact run_done E _ s hd
      · have h1 := stepsToDone_step E s h hd
        apply ih (step E Input.tick s) (run_flag E [Input.tick] s h)
        simp only [ticks] at hk
        omega

theorem messagesFrom_succ (shift : Nat) (nodes : Nat → Node) (pos k : Nat) :
    messagesFrom shift nodes pos (k + 1)
      = jsonStr shift (nodes pos) :: messagesFrom shift nodes (pos + 1) k := by
  simp [messagesFrom, List.range'_succ]

theorem run_proc (E : Env) (nodes : Nat → Node) (count : Nat) (is : List Input) :
    ∀ (s : LoopState) (pos : Nat), s.pc = Pc.proc nodes count pos → ticks is ≤ count - pos →
      (run E is s).pc = Pc.proc nodes count (pos + ticks is) ∧
      sendCalls (run E is s).trace
        = sendCalls s.trace ++ messagesFrom E.qualityShift nodes pos (ticks is) ∧
      grabCount (run E is s).trace = grabCount s.trace ∧
      ascendCount (run E is s).trace = ascendCount s.trace := by
  induction is with
  | nil => intro s pos hpc _; simp [run, ticks, hpc, messagesFrom]
  | cons i is ih =>
    intro s pos hpc hk
    cases i with
    | sigint =>
      have := ih { s with ctrl_c_pressed := true } pos hpc (by simpa [ticks] using hk)
      simpa [run, step, ticks] using this
    | tick =>
      simp only [ticks] at hk
      have hlt : pos < count := by omega
      have hstep_pc : (step E Input.tick s).pc = Pc.proc nodes count (pos + 1) := by
        simp [step, hpc, hlt]
      have hstep_tr : (step E Input.tick s).trace
          = (UdpSender.send E s.udpSender (jsonStr E.qualityShift (nodes pos))
              (s.trace ++ [Event.udpSend (jsonStr E.qualityShift (nodes pos))])).2 := by
        simp [step, hpc, hlt]
      obtain ⟨c1, c2, c3⟩ := send_counts E s.udpSender (jsonStr E.qualityShift (nodes pos))
        (s.trace ++ [Event.udpSend (jsonStr E.qualityShift (nodes pos))])
      obtain ⟨i1, i2, i3, i4⟩ := ih (step E Input.tick s) (pos + 1) hstep_pc (by omega)
      simp only [run, ticks]
      refine ⟨?_, ?_, ?_, ?_⟩
      · rw [i1]; congr 1; omega
      · rw [i2, hstep_tr, c1, messagesFrom_succ]
        simp [sendCalls_append, sendCalls]
      · rw [i3, hstep_tr, c2]; simp [grabCount_append, grabCount]
      · rw [i4, hstep_tr, c3]; simp [ascendCount_append, ascendCount]

theorem run_proc_rest (E : Env) (nodes : Nat → Node) (count pos : Nat) (is : List Input)
    (s : LoopState) (hpc : s.pc = Pc.proc nodes count pos) (hk : count - pos ≤ ticks is) :
    ∃ more, sendCalls (run E is s).trace
      = sendCalls s.trace ++ messagesFrom E.qualityShift nodes pos (count - pos) ++ more := by
  obtain ⟨is1, is2, hsplit, h1⟩ := ticks_split (count - pos) is hk
  subst hsplit
  rw [run_append]
  obtain ⟨_, hs, _, _⟩ := run_proc E nodes count is1 s pos hpc (by omega)
  obtain ⟨_, rest, hr, _⟩ := run_trace E is2 (run E is1 s)
  exact ⟨sendCalls rest, by rw [hr, sendCalls_append, hs, h1]⟩

theorem run_iteration_ok (E : Env) (s : LoopState) (is : List Input) (hpc : s.pc = Pc.grab)
    (hok : (E.grabScanDataHq s.trace nodesCapacity).1 = true)
    (hk : ticks is = (E.grabScanDataHq s.trace nodesCapacity).2.1 + 2) :
    (run E is s).pc = Pc.top ∧
    sendCalls (run E is s).trace
      = sendCalls s.trace ++ messagesFrom E.qualityShift
          (E.ascendScanData
            (s.trace ++ [Event.grabScanDataHq true (E.grabScanDataHq s.trace nodesCapacity).2.1])
            (E.grabScanDataHq s.trace nodesCapacity).2.2
            (E.grabScanDataHq s.trace nodesCapacity).2.1)
          0 (E.grabScanDataHq s.trace nodesCapacity).2.1 ∧
    grabCount (run E is s).trace = grabCount s.trace + 1 ∧
    ascendCount (run E is s).trace = ascendCount s.trace + 1 := by
  obtain ⟨is1, is23, hsplit, h1⟩ := ticks_split 1 is (by omega)
  subst hsplit
  have h23 : ticks is23 = (E.grabScanDataHq s.trace nodesCapacity).2.1 + 1 := by
    rw [ticks_append] at hk; omega
  obtain ⟨is2, is3, hsplit2, h2⟩ :=
    ticks_split (E.grabScanDataHq s.trace nodesCapacity).2.1 is23 (by omega)
  subst hsplit2
  have h3 : ticks is3 = 1 := by rw [ticks_append] at h23; omega
  obtain ⟨a1, a2⟩ := run_one_tick E is1 s h1 (by rw [hpc]; exact fun h => Pc.noConfusion h)
  have b1 : (run E is1 s).pc
      = Pc.proc (E.ascendScanData
          (s.trace ++ [Event.grabScanDataHq true (E.grabScanDataHq s.trace nodesCapacity).2.1])
          (E.grabScanDataHq s.trace nodesCapacity).2.2
          (E.grabScanDataHq s.trace nodesCapacity).2.1)
        (E.grabScanDataHq s.trace nodesCapacity).2.1 0 := by
    rw [a1]; simp [step, hpc, hok]
  have b2 : (run E is1 s).trace
      = s.trace ++ [Event.grabScanDataHq true (E.grabScanDataHq s.trace nodesCapacity).2.1,
          Event.ascendScanData (E.grabScanDataHq s.trace nodesCapacity).2.1] := by
    rw [a2]; simp [step, hpc, hok]
  obtain ⟨c1, c2, c3, c4⟩ := run_proc E _ _ is2 (run E is1 s) 0 b1 (by omega)
  have hne : (run E is2 (run E is1 s)).pc ≠ Pc.top := by
    rw [c1]; exact fun h => Pc.noConfusion h
  obtain ⟨d1, d2⟩ := run_one_tick E is3 (run E is2 (run E is1 s)) h3 hne
  rw [run_append, run_append]
  have e1 : (step E Input.tick (run E is2 (run E is1 s))).pc = Pc.top := by
    simp [step, c1, h2]
  have e2 : (step E Input.tick (run E is2 (run E is1 s))).trace
      = (run E is2 (run E is1 s)).trace := by
    simp [step, c1, h2]
  refine ⟨d1.trans e1, ?_, ?_, ?_⟩
  · rw [d2, e2, c2, b2, h2]
    simp [sendCalls_append, sendCalls]
  · rw [d2, e2, c3, b2]
    simp [grabCount_append, grabCount]
  · rw [d2, e2, c4, b2]
    simp [ascendCount_append, ascendCount]

theorem run_iteration_fail (E : Env) (s : LoopState) (is : List Input) (hpc : s.pc = Pc.grab)
    (hok : (E.grabScanDataHq s.trace nodesCapacity).1 = false) (hk : ticks is = 1) :
    (run E is s).pc = Pc.top ∧
    (run E is s).trace
      = s.trace ++ [Event.grabScanDataHq false (E.grabScanDataHq s.trace nodesCapacity).2.1] := by
  obtain ⟨a1, a2⟩ := run_one_tick E is s hk (by rw [hpc]; exact fun h => Pc.noConfusion h)
  rw [a1, a2]
  simp [step, hpc, hok]

theorem step_no_pending (E : Env) (i : Input) (s : LoopState) (h : s.ctrl_c_pressed = true)
    (h0 : pendingGrab s = 0) : pendingGrab (step E i s) = 0 := by
  cases i with
  | sigint => exact h0
  | tick =>
    cases hpc : s.pc with
    | top => simp [step, hpc, h, pendingGrab]
    | grab => simp [pendingGrab, hpc] at h0
    | proc nodes count pos =>
      by_cases hlt : pos < count
      · simp [step, hpc, hlt, pendingGrab]
      · simp [step, hpc, hlt, pendingGrab]
    | done => simp [step, hpc, pendingGrab]

theorem run_no_pending (E : Env) (is : List Input) :
    ∀ s, s.ctrl_c_pressed = true → pendingGrab s = 0 → pendingGrab (run E is s) = 0 := by
  induction is with
  | nil => intro s _ h0; exact h0
  | cons i is ih =>
    intro s h h0
    exact ih (step E i s) (run_flag E [i] s h) (step_no_pending E i s h h0)

theorem finish_trace (E : Env) (o : Opts) (s : LoopState) :
    ∃ rest, finish E o s
      = Outcome.exited 0 (s.trace ++ Event.stop :: Event.delay 200 :: rest) := by
  obtain ⟨r, hr, _⟩ := closeSocket_trace E s.udpSender
    ((if o.opt_channel_type = ChannelType.CHANNEL_TYPE_SERIALPORT
      then s.trace ++ [Event.stop, Event.delay 200] ++ [Event.setMotorSpeed (some 0)]
      else s.trace ++ [Event.stop, Event.delay 200]) ++ [Event.deleteDriver])
  unfold finish destroySender
  simp only
  rw [hr]
  split
  · exact ⟨[Event.setMotorSpeed (some 0), Event.deleteDriver] ++ r, by simp⟩
  · exact ⟨[Event.deleteDriver] ++ r, by simp⟩

/-! ## The session after the health check -/

theorem isSession_of_isLoop (e : Event) (h : e.isLoop = true) : e.isSession = true := by
  simp [Event.isSession, h]

theorem isSession_of_isSocketSetup (e : Event) (h : e.isSocketSetup = true) :
    e.isSession = true := by
  simp [Event.isSession, h]

theorem finish_events (E : Env) (o : Opts) (s : LoopState) :
    ∃ rest, finish E o s = Outcome.exited 0 (s.trace ++ rest) ∧
      (∀ e ∈ rest, e.isSession = true) ∧ Event.stop ∈ rest := by
  obtain ⟨r, hr, hrc⟩ := closeSocket_trace E s.udpSender
    ((if o.opt_channel_type = ChannelType.CHANNEL_TYPE_SERIALPORT
      then s.trace ++ [Event.stop, Event.delay 200] ++ [Event.setMotorSpeed (some 0)]
      else s.trace ++ [Event.stop, Event.delay 200]) ++ [Event.deleteDriver])
  unfold finish destroySender
  simp only
  rw [hr]
  split
  · refine ⟨[Event.stop, Event.delay 200, Event.setMotorSpeed (some 0), Event.deleteDriver] ++ r,
      by simp, ?_, by simp⟩
    intro e he
    rcases List.mem_append.mp he with h | h
    · simp only [List.mem_cons, List.mem_singleton, List.not_mem_nil, or_false] at h
      rcases h with h | h | h | h <;> subst h <;> rfl
    · exact isSession_of_isSocketSetup e (hrc e h)
  · refine ⟨[Event.stop, Event.delay 200, Event.deleteDriver] ++ r, by simp, ?_, by simp⟩
    intro e he
    rcases List.mem_append.mp he with h | h
    · simp only [List.mem_cons, List.mem_singleton, List.not_mem_nil, or_false] at h
      rcases h with h | h | h <;> subst h <;> rfl
    · exact isSession_of_isSocketSetup e (hrc e h)

theorem session_events (E : Env) (o : Opts) (sched : List Input) (t : List Event) :
    ∃ rest, (∀ e ∈ rest, e.isSession = true) ∧
      (session E o sched t = Outcome.running (t ++ Event.signal :: rest) ∨
       (session E o sched t = Outcome.exited 0 (t ++ Event.signal :: rest) ∧
         (Event.startScan ∈ rest → Event.stop ∈ rest))) := by
  unfold session
  simp only
  generalize ht2 : (if o.opt_channel_type = ChannelType.CHANNEL_TYPE_SERIALPORT
    then t ++ [Event.signal] ++ [Event.setMotorSpeed none] else t ++ [Event.signal]) = t2
  have h2 : ∃ r2, t2 = t ++ Event.signal :: r2 ∧ (∀ e ∈ r2, e.isSession = true) ∧
      Event.startScan ∉ r2 := by
    subst ht2
    split
    · exact ⟨[Event.setMotorSpeed none], by simp, by simp [Event.isSession], by simp⟩
    · exact ⟨[], by simp, by simp, by simp⟩
  obtain ⟨r2, rfl, hr2, hns2⟩ := h2
  obtain ⟨ri, hri, hric⟩ := init_trace E (UdpSender.new "10.35.194.214" 7000)
    (t ++ Event.signal :: r2)
  have hnsi : Event.startScan ∉ ri := fun h => by
    have := hric _ h
    simp [Event.isSocketSetup] at this
  by_cases hinit : (UdpSender.init E (UdpSender.new "10.35.194.214" 7000)
      (t ++ Event.signal :: r2)).1 = false
  · rw [if_pos hinit]
    obtain ⟨rc, hrc, hrcc⟩ := closeSocket_trace E
      (UdpSender.init E (UdpSender.new "10.35.194.214" 7000) (t ++ Event.signal :: r2)).2.1
      ((UdpSender.init E (UdpSender.new "10.35.194.214" 7000) (t ++ Event.signal :: r2)).2.2
        ++ [Event.deleteDriver])
    have hnsc : Event.startScan ∉ rc := fun h => by
      have := hrcc _ h
      simp [Event.isSocketSetup] at this
    refine ⟨r2 ++ ri ++ [Event.deleteDriver] ++ rc, ?_, Or.inr ⟨?_, ?_⟩⟩
    · intro e he
      simp only [List.mem_append, List.mem_singleton] at he
      rcases he with ((h | h) | h) | h
      · exact hr2 e h
      · exact isSession_of_isSocketSetup e (hric e h)
      · subst h; rfl
      · exact isSession_of_isSocketSetup e (hrcc e h)
    · unfold destroySender
      rw [hrc, hri]
      simp
    · intro h
      simp only [List.mem_append, List.mem_singleton] at h
      rcases h with ((h | h) | h) | h
      · exact absurd h hns2
      · exact absurd h hnsi
      · cases h
      · exact absurd h hnsc
  · rw [if_neg hinit]
    obtain ⟨_, rl, hrl, hrlc⟩ := run_trace E sched
      (loopStart (UdpSender.init E (UdpSender.new "10.35.194.214" 7000)
          (t ++ Event.signal :: r2)).2.1
        (UdpSender.init E (UdpSender.new "10.35.194.214" 7000) (t ++ Event.signal :: r2)).2.2)
    have hbase : ∀ e ∈ r2 ++ ri ++ [Event.startScan] ++ rl, e.isSession = true := by
      intro e he
      simp only [List.mem_append, List.mem_singleton] at he
      rcases he with ((h | h) | h) | h
      · exact hr2 e h
      · exact isSession_of_isSocketSetup e (hric e h)
      · subst h; rfl
      · exact isSession_of_isLoop e (hrlc e h)
    have htr : (run E sched (loopStart
        (UdpSender.init E (UdpSender.new "10.35.194.214" 7000) (t ++ Event.signal :: r2)).2.1
        (UdpSender.init E (UdpSender.new "10.35.194.214" 7000)
          (t ++ Event.signal :: r2)).2.2)).trace
        = t ++ Event.signal :: (r2 ++ ri ++ [Event.startScan] ++ rl) := by
      rw [hrl]
      simp [loopStart, hri]
    split
    · obtain ⟨rf, hrf, hrfc, hstop⟩ := finish_events E o (run E sched (loopStart
        (UdpSender.init E (UdpSender.new "10.35.194.214" 7000) (t ++ Event.signal :: r2)).2.1
        (UdpSender.init E (UdpSender.new "10.35.194.214" 7000)
          (t ++ Event.signal :: r2)).2.2))
      refine ⟨r2 ++ ri ++ [Event.startScan] ++ rl ++ rf, ?_, Or.inr ⟨?_, ?_⟩⟩
      · intro e he
        rcases List.mem_append.mp he with h | h
        · exact hbase e h
        · exact hrfc e h
      · rw [hrf, htr]
        simp
      · intro _
        exact List.mem_append.mpr (Or.inr hstop)
    · exact ⟨r2 ++ ri ++ [Event.startScan] ++ rl, hbase, Or.inl (by rw [htr])⟩

/-! ## The shapes of a run of `main` -/

theorem main_shapes (E : Env) (argv : List String) (sched : List Input) :
    (parseArgs E argv = Parsed.usage ∧
      main E argv sched = Outcome.exited (-1) [Event.print_usage (argv.get? 0)]) ∨
    ((parseArgs E argv = Parsed.nullDeref ∧ main E argv sched = Outcome.nullDeref []) ∨
      ((∃ o, parseArgs E argv = Parsed.ok o) ∧ E.createLidarDriver = true ∧
        main E argv sched = Outcome.nullDeref [Event.createLidarDriver true])) ∨
    ((∃ o, parseArgs E argv = Parsed.ok o) ∧ E.createLidarDriver = false ∧
      main E argv sched = Outcome.exited (-2) [Event.createLidarDriver false]) ∨
    ((∃ o, parseArgs E argv = Parsed.ok o) ∧ E.createLidarDriver = true ∧
      ∃ rc, (∀ e ∈ rc, e.isConnect = true) ∧
        main E argv sched
          = Outcome.exited (-3) (Event.createLidarDriver true :: rc ++ [Event.deleteDriver])) ∨
    ((∃ o, parseArgs E argv = Parsed.ok o) ∧ E.createLidarDriver = true ∧
      ∃ rc ok st, (∀ e ∈ rc, e.isConnect = true) ∧ (ok = false ∨ st = HealthStatus.Error) ∧
        main E argv sched
          = Outcome.exited (-4)
              (Event.createLidarDriver true :: rc ++ [Event.getHealth ok st, Event.deleteDriver])) ∨
    ((∃ o, parseArgs E argv = Parsed.ok o) ∧ E.createLidarDriver = true ∧
      ∃ rc st rs, (∀ e ∈ rc, e.isConnect = true) ∧ st ≠ HealthStatus.Error ∧
        (∀ e ∈ rs, e.isSession = true) ∧
        (main E argv sched
            = Outcome.running
                (Event.createLidarDriver true :: rc ++ Event.getHealth true st :: Event.signal :: rs) ∨
         (main E argv sched
            = Outcome.exited 0
                (Event.createLidarDriver true :: rc ++ Event.getHealth true st :: Event.signal :: rs) ∧
          (Event.startScan ∈ rs → Event.stop ∈ rs)))) := by
  unfold main
  cases hparse : parseArgs E argv with
  | usage => exact Or.inl ⟨rfl, rfl⟩
  | nullDeref => exact Or.inr (Or.inl (Or.inl ⟨rfl, rfl⟩))
  | ok o0 =>
    simp only
    by_cases hdrv : E.createLidarDriver = false
    · rw [if_pos hdrv]
      exact Or.inr (Or.inr (Or.inl ⟨⟨o0, rfl⟩, hdrv, rfl⟩))
    · rw [if_neg hdrv]
      have hdrv1 : E.createLidarDriver = true := by simpa using hdrv
      cases hcp : connectPhase E (defaultPort E o0) [Event.createLidarDriver true] with
      | none => exact Or.inr (Or.inl (Or.inr ⟨⟨o0, rfl⟩, hdrv1, rfl⟩))
      | some c =>
      simp only
      obtain ⟨rc, hrc0, hrcc⟩ :=
        connectPhase_trace E (defaultPort E o0) [Event.createLidarDriver true] c hcp
      have hrc : c.2 = Event.createLidarDriver true :: rc := by simpa using hrc0
      by_cases hconn : c.1 = false
      · rw [if_pos hconn]
        exact Or.inr (Or.inr (Or.inr (Or.inl ⟨⟨o0, rfl⟩, hdrv1, rc, hrcc, by rw [hrc]⟩)))
      · rw [if_neg hconn, hrc]
        unfold checkSLAMTECLIDARHealth
        simp only
        by_cases hok : (E.getHealth (Event.createLidarDriver true :: rc)).1 = true
        · rw [if_pos hok]
          by_cases herr : (E.getHealth (Event.createLidarDriver true :: rc)).2
              = HealthStatus.Error
          · rw [if_pos herr]
            simp only [if_true]
            exact Or.inr (Or.inr (Or.inr (Or.inr (Or.inl
              ⟨⟨o0, rfl⟩, hdrv1, rc, true, HealthStatus.Error, hrcc, Or.inr rfl,
                by simp [herr]⟩))))
          · rw [if_neg herr]
            simp only [Bool.true_eq_false, if_false]
            obtain ⟨rs, hrs, hout⟩ := session_events E (defaultPort E o0) sched
              (Event.createLidarDriver true :: rc ++
                [Event.getHealth true (E.getHealth (Event.createLidarDriver true :: rc)).2])
            refine Or.inr (Or.inr (Or.inr (Or.inr (Or.inr
              ⟨⟨o0, rfl⟩, hdrv1, rc,
                (E.getHealth (Event.createLidarDriver true :: rc)).2, rs, hrcc, herr, hrs,
                ?_⟩))))
            rcases hout with h | ⟨h, h2⟩
            · exact Or.inl (by rw [h]; simp)
            · exact Or.inr ⟨by rw [h]; simp, h2⟩
        · rw [if_neg hok]
          simp only [if_true]
          have hokf : (E.getHealth (Event.createLidarDriver true :: rc)).1 = false := by
            simpa using hok
          exact Or.inr (Or.inr (Or.inr (Or.inr (Or.inl
            ⟨⟨o0, rfl⟩, hdrv1, rc, false,
              (E.getHealth (Event.createLidarDriver true :: rc)).2, hrcc,
              Or.inl rfl, by simp [hokf]⟩))))

theorem isConnect_cons (rc : List Event) (h : ∀ e ∈ rc, e.isConnect = true) :
    ∀ e ∈ Event.createLidarDriver true :: rc, e.isConnect = true := by
  intro e he
  rcases List.mem_cons.mp he with h1 | h1
  · subst h1; rfl
  · exact h e h1

theorem main_cases (E : Env) (argv : List String) (sched : List Input) :
    main E argv sched = Outcome.exited (-1) [Event.print_usage (argv.get? 0)] ∨
    (main E argv sched = Outcome.nullDeref [] ∨
      main E argv sched = Outcome.nullDeref [Event.createLidarDriver true]) ∨
    main E argv sched = Outcome.exited (-2) [Event.createLidarDriver false] ∨
    (∃ rc, (∀ e ∈ rc, e.isConnect = true) ∧
      main E argv sched = Outcome.exited (-3) (rc ++ [Event.deleteDriver])) ∨
    (∃ rc ok st, (∀ e ∈ rc, e.isConnect = true) ∧ (ok = false ∨ st = HealthStatus.Error) ∧
      main E argv sched
        = Outcome.exited (-4) (rc ++ [Event.getHealth ok st, Event.deleteDriver])) ∨
    (∃ rc st rs, (∀ e ∈ rc, e.isConnect = true) ∧ st ≠ HealthStatus.Error ∧
      (∀ e ∈ rs, e.isSession = true) ∧
      (main E argv sched
          = Outcome.running (rc ++ Event.getHealth true st :: Event.signal :: rs) ∨
       (main E argv sched
          = Outcome.exited 0 (rc ++ Event.getHealth true st :: Event.signal :: rs) ∧
        (Event.startScan ∈ rs → Event.stop ∈ rs)))) := by
  rcases main_shapes E argv sched with ⟨_, h⟩ | (⟨_, h⟩ | ⟨_, _, h⟩) | ⟨_, _, h⟩ |
    ⟨_, _, rc, hrc, h⟩ | ⟨_, _, rc, ok, st, hrc, hbad, h⟩ | ⟨_, _, rc, st, rs, hrc, hst, hrs, h⟩
  · exact Or.inl h
  · exact Or.inr (Or.inl (Or.inl h))
  · exact Or.inr (Or.inl (Or.inr h))
  · exact Or.inr (Or.inr (Or.inl h))
  · exact Or.inr (Or.inr (Or.inr (Or.inl ⟨_, isConnect_cons rc hrc, h⟩)))
  · exact Or.inr (Or.inr (Or.inr (Or.inr (Or.inl ⟨_, ok, st, isConnect_cons rc hrc, hbad, h⟩))))
  · exact Or.inr (Or.inr (Or.inr (Or.inr (Or.inr ⟨_, st, rs, isConnect_cons rc hrc, hst, hrs, h⟩))))

/-! ## Cancellation (C9) -/

/-- C9: in the step model of the loop of lines 241-272, (1) away from the loop
condition a program step does not depend on the flag `ctrl_c_pressed`;
(2) once the flag is set, at most one further `grabScanDataHq` call is made,
and none unless that call was the very next program step; (3) once the flag
is set the loop is left after the remaining steps of the iteration in
progress; (4) whatever the flag, every remaining sample of a buffer already
retrieved is passed to the sender, in order; (5) when the loop has been left,
`main` continues with `stop` and the settling delay. -/
theorem C9_cancellation (E : Env) (s : LoopState) (is : List Input) :
    (s.pc ≠ Pc.top → ∀ b,
      (step E Input.tick { s with ctrl_c_pressed := b }).pc = (step E Input.tick s).pc ∧
      (step E Input.tick { s with ctrl_c_pressed := b }).trace = (step E Input.tick s).trace) ∧
    (s.ctrl_c_pressed = true →
      grabCount (run E is s).trace ≤ grabCount s.trace + 1 ∧
      (s.pc ≠ Pc.grab → grabCount (run E is s).trace = grabCount s.trace) ∧
      (stepsToDone E s ≤ ticks is → (run E is s).pc = Pc.done)) ∧
    (∀ nodes count pos, s.pc = Pc.proc nodes count pos → count - pos ≤ ticks is →
      ∃ more, sendCalls (run E is s).trace
        = sendCalls s.trace ++ messagesFrom E.qualityShift nodes pos (count - pos) ++ more) ∧
    (∀ o : Opts, ∃ rest, finish E o (run E is s)
      = Outcome.exited 0 ((run E is s).trace ++ Event.stop :: Event.delay 200 :: rest)) := by
  refine ⟨fun h b => step_tick_flag E s b h, ?_, ?_, ?_⟩
  · intro hflag
    have hbal := run_grab_balance E is s hflag
    refine ⟨?_, ?_, run_exits E is s hflag⟩
    · have : pendingGrab s ≤ 1 := by
        unfold pendingGrab; split <;> omega
      omega
    · intro hne
      have h0 : pendingGrab s = 0 := by
        unfold pendingGrab
        split
        · rename_i h; exact absurd h hne
        · rfl
      have h1 := run_no_pending E is s hflag h0
      omega
  · intro nodes count pos hpc hk
    exact run_proc_rest E nodes count pos is s hpc hk
  · intro o
    exact finish_trace E o (run E is s)

/-- C9 witness: in `envGood` the flag is already set while the first of two
retrieved samples is being processed; after four program steps (and one more
signal) the loop has been left, no further grab was made, and both samples
were handed to the sender. -/
theorem C9_cancellation_witness :
    (run envGood [Input.tick, Input.tick, Input.sigint, Input.tick, Input.tick]
      stateCancelledMidBuffer).pc = Pc.done ∧
    grabCount (run envGood [Input.tick, Input.tick, Input.sigint, Input.tick, Input.tick]
      stateCancelledMidBuffer).trace = grabCount stateCancelledMidBuffer.trace ∧
    (∃ more, sendCalls (run envGood [Input.tick, Input.tick, Input.sigint, Input.tick, Input.tick]
        stateCancelledMidBuffer).trace
      = sendCalls stateCancelledMidBuffer.trace ++
          messagesFrom envGood.qualityShift
            (fun i => { angle_z_q14 := 8192 * i, dist_mm_q2 := 400 + i, quality := 64 }) 0 (2 - 0)
          ++ more) ∧
    (∀ b, (step envGood Input.tick { stateCancelledMidBuffer with ctrl_c_pressed := b }).pc
        = (step envGood Input.tick stateCancelledMidBuffer).pc ∧
      (step envGood Input.tick { stateCancelledMidBuffer with ctrl_c_pressed := b }).trace
        = (step envGood Input.tick stateCancelledMidBuffer).trace) :=
  ⟨((C9_cancellation envGood stateCancelledMidBuffer
        [Input.tick, Input.tick, Input.sigint, Input.tick, Input.tick]).2.1 rfl).2.2 (by decide),
   ((C9_cancellation envGood stateCancelledMidBuffer
        [Input.tick, Input.tick, Input.sigint, Input.tick, Input.tick]).2.1 rfl).2.1
      (fun h => Pc.noConfusion h),
   (C9_cancellation envGood stateCancelledMidBuffer
        [Input.tick, Input.tick, Input.sigint, Input.tick, Input.tick]).2.2.1 _ 2 0 rfl (by decide),
   (C9_cancellation envGood stateCancelledMidBuffer
        [Input.tick, Input.tick, Input.sigint, Input.tick, Input.tick]).1
      (fun h => Pc.noConfusion h)⟩

/-! ## One loop iteration (C10) -/

theorem step_top_continues (E : Env) (s : LoopState) (hpc : s.pc = Pc.top)
    (hf : s.ctrl_c_pressed = false) :
    (step E Input.tick s).pc = Pc.grab ∧
    (step E Input.tick s).trace = s.trace ∧
    grabCount (step E Input.tick (step E Input.tick s)).trace = grabCount s.trace + 1 := by
  have h1 : step E Input.tick s = { s with pc := Pc.grab } := by
    simp [step, hpc, hf]
  rw [h1]
  refine ⟨rfl, rfl, ?_⟩
  by_cases hg : (E.grabScanDataHq s.trace nodesCapacity).1 = true
  · simp [step, hg, grabCount_append, grabCount]
  · simp [step, hg, grabCount_append, grabCount]

/-- C10: for an iteration whose loop condition has let it in (the next program
step is the `grabScanDataHq` call): if the grab succeeds with actual count
`n` (any `n`, in particular `n ≤ 8192`), then after the `n + 2` program steps
of the iteration, whatever signals arrive and whatever each send returns,
the loop is back at its condition, exactly one grab and one reorder call
were made, and exactly `n` send calls were made, one per sample of the
reordered buffer in buffer order; if the grab fails, one program step leads
back to the loop condition with only the grab call made: no send call and
no reorder call.  In both cases the loop continues: unless a signal has set
the flag meanwhile, the next program step at the loop condition lets the
next iteration in without any call, and the step after it is the next
`grabScanDataHq` call. -/
theorem C10_iteration (E : Env) (s : LoopState) (is : List Input) (hpc : s.pc = Pc.grab) :
    ((E.grabScanDataHq s.trace nodesCapacity).1 = true →
      ticks is = (E.grabScanDataHq s.trace nodesCapacity).2.1 + 2 →
      (run E is s).pc = Pc.top ∧
      sendCalls (run E is s).trace
        = sendCalls s.trace ++ messagesFrom E.qualityShift
            (E.ascendScanData
              (s.trace ++ [Event.grabScanDataHq true (E.grabScanDataHq s.trace nodesCapacity).2.1])
              (E.grabScanDataHq s.trace nodesCapacity).2.2
              (E.grabScanDataHq s.trace nodesCapacity).2.1)
            0 (E.grabScanDataHq s.trace nodesCapacity).2.1 ∧
      (sendCalls (run E is s).trace).length
        = (sendCalls s.trace).length + (E.grabScanDataHq s.trace nodesCapacity).2.1 ∧
      grabCount (run E is s).trace = grabCount s.trace + 1 ∧
      ascendCount (run E is s).trace = ascendCount s.trace + 1 ∧
      ((run E is s).ctrl_c_pressed = false →
        (step E Input.tick (run E is s)).pc = Pc.grab ∧
        (step E Input.tick (run E is s)).trace = (run E is s).trace ∧
        grabCount (step E Input.tick (step E Input.tick (run E is s))).trace
          = grabCount (run E is s).trace + 1)) ∧
    ((E.grabScanDataHq s.trace nodesCapacity).1 = false → ticks is = 1 →
      (run E is s).pc = Pc.top ∧
      (run E is s).trace
        = s.trace ++ [Event.grabScanDataHq false (E.grabScanDataHq s.trace nodesCapacity).2.1] ∧
      sendCalls (run E is s).trace = sendCalls s.trace ∧
      ascendCount (run E is s).trace = ascendCount s.trace ∧
      ((run E is s).ctrl_c_pressed = false →
        (step E Input.tick (run E is s)).pc = Pc.grab ∧
        (step E Input.tick (run E is s)).trace = (run E is s).trace ∧
        grabCount (step E Input.tick (step E Input.tick (run E is s))).trace
          = grabCount (run E is s).trace + 1)) := by
  constructor
  · intro hok hk
    obtain ⟨h1, h2, h3, h4⟩ := run_iteration_ok E s is hpc hok hk
    refine ⟨h1, h2, ?_, h3, h4, fun hf => step_top_continues E _ h1 hf⟩
    rw [h2]
    simp [messagesFrom]
  · intro hok hk
    obtain ⟨h1, h2⟩ := run_iteration_fail E s is hpc hok hk
    refine ⟨h1, h2, ?_, ?_, fun hf => step_top_continues E _ h1 hf⟩
    · rw [h2]; simp [sendCalls_append, sendCalls]
    · rw [h2]; simp [ascendCount_append, ascendCount]

/-- C10 witness: in `envGood` a grab of two samples, interrupted by a signal,
ends with exactly the two messages sent; in `envNoGrab` the failed grab is the
only call of the iteration; and with the flag clear the next grab follows in
both environments. -/
theorem C10_iteration_witness :
    sendCalls (run envGood [Input.tick, Input.sigint, Input.tick, Input.tick, Input.tick]
        stateInFlight).trace
      = ["\x7b\"type\":\"LIDAR\",\"distance\":100,\"angle\":0,\"quality\":1\x7d",
         "\x7b\"type\":\"LIDAR\",\"distance\":100.25,\"angle\":45,\"quality\":1\x7d"] ∧
    (run envNoGrab [Input.tick] stateInFlight).trace
      = [Event.startScan, Event.grabScanDataHq false 0] ∧
    grabCount (step envGood Input.tick (step envGood Input.tick
        (run envGood [Input.tick, Input.tick, Input.tick, Input.tick] stateAtGrab))).trace
      = grabCount (run envGood [Input.tick, Input.tick, Input.tick, Input.tick]
          stateAtGrab).trace + 1 ∧
    (step envNoGrab Input.tick (run envNoGrab [Input.tick] stateAtGrab)).pc = Pc.grab := by
  refine ⟨?_, ?_, ?_, ?_⟩
  · rw [((C10_iteration envGood stateInFlight
      [Input.tick, Input.sigint, Input.tick, Input.tick, Input.tick] rfl).1 rfl (by decide)).2.1]
    decide
  · rw [((C10_iteration envNoGrab stateInFlight [Input.tick] rfl).2 rfl (by decide)).2.1]
    decide
  · exact (((C10_iteration envGood stateAtGrab
      [Input.tick, Input.tick, Input.tick, Input.tick] rfl).1 rfl (by decide)).2.2.2.2.2
        (by decide)).2.2
  · exact (((C10_iteration envNoGrab stateAtGrab [Input.tick] rfl).2 rfl (by decide)).2.2.2.2
        (by decide)).1

/-! ## Health gate (C7) -/

/-- C7: whenever the trace of a run of `main` contains a health query that
reported status `Error`, `main` returned `-4` right after releasing the
driver, and the trace contains no `startScan`, no `grabScanDataHq`, no call
of the sender and no `sendto`; whenever it contains a successful health query
that reported `Good` or `Warning`, the run went on to install the signal
handler and did not return `-4`; and `checkSLAMTECLIDARHealth` on a
successful query returns `true` exactly for a status other than `Error`. -/
theorem C7_health_gate (E : Env) (argv : List String) (sched : List Input) :
    (∀ ok, Event.getHealth ok HealthStatus.Error ∈ (main E argv sched).trace →
      (∃ tr, main E argv sched
        = Outcome.exited (-4) (tr ++ [Event.getHealth ok HealthStatus.Error, Event.deleteDriver])) ∧
      Event.startScan ∉ (main E argv sched).trace ∧
      (∀ g n, Event.grabScanDataHq g n ∉ (main E argv sched).trace) ∧
      (∀ m, Event.udpSend m ∉ (main E argv sched).trace) ∧
      (∀ fd m r, Event.sendto fd m r ∉ (main E argv sched).trace)) ∧
    (∀ st, st = HealthStatus.Good ∨ st = HealthStatus.Warning →
      Event.getHealth true st ∈ (main E argv sched).trace →
      Event.signal ∈ (main E argv sched).trace ∧
      ∀ tr, main E argv sched ≠ Outcome.exited (-4) tr) ∧
    (∀ t st, E.getHealth t = (true, st) →
      ((checkSLAMTECLIDARHealth E t).1 = true ↔ st ≠ HealthStatus.Error)) := by
  refine ⟨?_, ?_, ?_⟩
  · intro ok hmem
    rcases main_cases E argv sched with h | (h | h) | h | ⟨rc, hrc, h⟩ |
      ⟨rc, ok1, st1, hrc, hbad, h⟩ | ⟨rc, st, rs, hrc, hst, hrs, h⟩
    · rw [h] at hmem; simp [Outcome.trace] at hmem
    · rw [h] at hmem; simp [Outcome.trace] at hmem
    · rw [h] at hmem; simp [Outcome.trace] at hmem
    · rw [h] at hmem; simp [Outcome.trace] at hmem
    · rw [h] at hmem
      simp only [Outcome.trace, List.mem_append, List.mem_singleton] at hmem
      rcases hmem with hm | hm
      · have := hrc _ hm; simp [Event.isConnect] at this
      · cases hm
    · rw [h] at hmem ⊢
      simp only [Outcome.trace, List.mem_append, List.mem_cons, List.mem_singleton,
        List.not_mem_nil, or_false] at hmem ⊢
      rcases hmem with hm | hm | hm
      · have := hrc _ hm; simp [Event.isConnect] at this
      · injection hm with e1 e2
        subst e1; subst e2
        refine ⟨⟨rc, rfl⟩, ?_, ?_, ?_, ?_⟩
        · rintro (hm | hm | hm)
          · have := hrc _ hm; simp [Event.isConnect] at this
          · cases hm
          · cases hm
        · rintro g n (hm | hm | hm)
          · have := hrc _ hm; simp [Event.isConnect] at this
          · cases hm
          · cases hm
        · rintro m (hm | hm | hm)
          · have := hrc _ hm; simp [Event.isConnect] at this
          · cases hm
          · cases hm
        · rintro fd m r (hm | hm | hm)
          · have := hrc _ hm; simp [Event.isConnect] at this
          · cases hm
          · cases hm
      · cases hm
    · have hmem2 : Event.getHealth ok HealthStatus.Error
          ∈ rc ++ Event.getHealth true st :: Event.signal :: rs := by
        rcases h with h | ⟨h, _⟩ <;> (rw [h] at hmem; exact hmem)
      simp only [List.mem_append, List.mem_cons] at hmem2
      rcases hmem2 with hm | hm | hm | hm
      · have := hrc _ hm; simp [Event.isConnect] at this
      · injection hm with e1 e2
        exact absurd e2.symm hst
      · cases hm
      · have := hrs _ hm; simp [Event.isSession, Event.isLoop, Event.isSocketSetup] at this
  · intro st hgw hmem
    have hne : st ≠ HealthStatus.Error := by
      rcases hgw with h | h <;> (subst h; exact fun h => HealthStatus.noConfusion h)
    rcases main_cases E argv sched with h | (h | h) | h | ⟨rc, hrc, h⟩ |
      ⟨rc, ok1, st1, hrc, hbad, h⟩ | ⟨rc, st2, rs, hrc, hst, hrs, h⟩
    · rw [h] at hmem; simp [Outcome.trace] at hmem
    · rw [h] at hmem; simp [Outcome.trace] at hmem
    · rw [h] at hmem; simp [Outcome.trace] at hmem
    · rw [h] at hmem; simp [Outcome.trace] at hmem
    · rw [h] at hmem
      simp only [Outcome.trace, List.mem_append, List.mem_singleton] at hmem
      rcases hmem with hm | hm
      · have := hrc _ hm; simp [Event.isConnect] at this
      · cases hm
    · rw [h] at hmem
      simp only [Outcome.trace, List.mem_append, List.mem_cons, List.mem_singleton,
        List.not_mem_nil, or_false] at hmem
      rcases hmem with hm | hm | hm
      · have := hrc _ hm; simp [Event.isConnect] at this
      · injection hm with e1 e2
        subst e1; subst e2
        rcases hbad with hb | hb
        · cases hb
        · exact absurd hb hne
      · cases hm
    · rcases h with h | ⟨h, _⟩
      · rw [h]
        exact ⟨by simp [Outcome.trace], fun tr hh => Outcome.noConfusion hh⟩
      · rw [h]
        refine ⟨by simp [Outcome.trace], fun tr hh => ?_⟩
        injection hh with e1 _
        omega
  · intro t st hq
    unfold checkSLAMTECLIDARHealth
    simp only [hq, if_true]
    by_cases hst : st = HealthStatus.Error
    · simp [hst]
    · simp [hst]

/-- C7 witness: a device reporting `Error` (no scan is started, status `-4`)
and a device reporting `Warning` (the handler is installed). -/
theorem C7_health_gate_witness :
    Event.startScan ∉ (main envHealthError
      ["lidarReceiver", "--channel", "--serial", "/dev/ttyUSB0", "115200"] [Input.tick]).trace ∧
    Event.signal ∈ (main envHealthWarning
      ["lidarReceiver", "--channel", "--serial", "/dev/ttyUSB0", "115200"] [Input.tick]).trace ∧
    (checkSLAMTECLIDARHealth envHealthWarning []).1 = true :=
  ⟨((C7_health_gate envHealthError
      ["lidarReceiver", "--channel", "--serial", "/dev/ttyUSB0", "115200"] [Input.tick]).1 true
      (by decide)).2.1,
   ((C7_health_gate envHealthWarning
      ["lidarReceiver", "--channel", "--serial", "/dev/ttyUSB0", "115200"] [Input.tick]).2.1
      HealthStatus.Warning (Or.inr rfl) (by decide)).1,
   ((C7_health_gate envHealthWarning
      ["lidarReceiver", "--channel", "--serial", "/dev/ttyUSB0", "115200"] [Input.tick]).2.2
      [] HealthStatus.Warning rfl).mpr (by decide)⟩

/-! ## Argument parsing (C1, C3) -/

theorem parseArgs_usage (E : Env) (argv : List String)
    (h : argv.length ≤ 1 ∨ argv.get? 1 ≠ some "--channel" ∨
      (∃ c, argv.get? 2 = some c ∧ c ≠ "-s" ∧ c ≠ "--serial" ∧ c ≠ "-u" ∧ c ≠ "--udp")) :
    parseArgs E argv = Parsed.usage := by
  unfold parseArgs
  by_cases h1 : argv.length > 1
  · rw [if_pos h1]
    by_cases h2 : argv.get? 1 = some "--channel"
    · rw [if_pos h2]
      rcases h with h | h | ⟨c, hc, n1, n2, n3, n4⟩
      · omega
      · exact absurd h2 h
      · rw [hc]
        simp [n1, n2, n3, n4]
    · rw [if_neg h2]
  · rw [if_neg h1]

theorem parseArgs_selected (E : Env) (argv : List String) (c : String)
    (h1 : argv.get? 1 = some "--channel") (h2 : argv.get? 2 = some c)
    (hc : c = "-s" ∨ c = "--serial" ∨ c = "-u" ∨ c = "--udp") :
    ∃ o, parseArgs E argv = Parsed.ok o := by
  have hlen : argv.length > 1 := by
    rcases Nat.lt_or_ge 1 argv.length with h | h
    · exact h
    · rw [List.get?_eq_none.mpr h] at h1; cases h1
  unfold parseArgs
  rw [if_pos hlen, if_pos h1, h2]
  simp only
  by_cases hs : c = "-s" ∨ c = "--serial"
  · rw [if_pos hs]; exact ⟨_, rfl⟩
  · rw [if_neg hs]
    have hu : c = "-u" ∨ c = "--udp" := by
      rcases hc with h | h | h | h
      · exact absurd (Or.inl h) hs
      · exact absurd (Or.inr h) hs
      · exact Or.inl h
      · exact Or.inr h
    rw [if_pos hu]; exact ⟨_, rfl⟩

theorem parseArgs_serial_flag (E : Env) (argv : List String) (o : Opts)
    (h : parseArgs E argv = Parsed.ok o)
    (hs : o.opt_channel_type = ChannelType.CHANNEL_TYPE_SERIALPORT) : o.useArgcBaudrate = true := by
  unfold parseArgs at h
  split at h
  · split at h
    · split at h
      · cases h
      · split at h
        · injection h with h; subst h; rfl
        · split at h
          · injection h with h; subst h; cases hs
          · cases h
    · cases h
  · cases h

/-- C3 (counterexample): with the port missing after `--channel --udp <host>`,
and with the path missing after `--channel --serial`, `main` prints no usage:
it allocates the driver, attempts one connect (network port 0, respectively
the default serial port at speed 0) and, no device answering, returns `-3`. -/
theorem C3_missing_operand_accepted :
    main envNoDevice ["lidarReceiver", "--channel", "--udp", "192.168.11.2"] []
      = Outcome.exited (-3)
          [Event.createLidarDriver true,
           Event.createChannel (Channel.udp "192.168.11.2" 0),
           Event.connect (Channel.udp "192.168.11.2" 0) false,
           Event.deleteDriver] ∧
    main envNoDevice ["lidarReceiver", "--channel", "--serial"] []
      = Outcome.exited (-3)
          [Event.createLidarDriver true,
           Event.createChannel (Channel.serial "/dev/ttyUSB0" 0),
           Event.connect (Channel.serial "/dev/ttyUSB0" 0) false,
           Event.deleteDriver] := by
  decide

/-- C3 (amended): `main` prints usage and returns `-1`, without creating a
driver or attempting a connection, for every argument vector that has no
first argument, or whose first argument is not `--channel`, or whose second
argument is present and is none of `-s`, `--serial`, `-u`, `--udp`.  Whenever
the first argument is `--channel` and the second is one of these four
selectors, whatever follows (a missing path or port included), no usage is
printed and the first call made is the driver allocation. -/
theorem C3_usage_exit (E : Env) (argv : List String) (sched : List Input) :
    ((argv.length ≤ 1 ∨ argv.get? 1 ≠ some "--channel" ∨
        (∃ c, argv.get? 2 = some c ∧ c ≠ "-s" ∧ c ≠ "--serial" ∧ c ≠ "-u" ∧ c ≠ "--udp")) →
      main E argv sched = Outcome.exited (-1) [Event.print_usage (argv.get? 0)]) ∧
    (∀ c, argv.get? 1 = some "--channel" → argv.get? 2 = some c →
      (c = "-s" ∨ c = "--serial" ∨ c = "-u" ∨ c = "--udp") →
      (∃ rest, (main E argv sched).trace = Event.createLidarDriver E.createLidarDriver :: rest) ∧
      ∀ p, Event.print_usage p ∉ (main E argv sched).trace) := by
  constructor
  · intro h
    have hp := parseArgs_usage E argv h
    unfold main
    rw [hp]
  · intro c h1 h2 hc
    obtain ⟨o, ho⟩ := parseArgs_selected E argv c h1 h2 hc
    rcases main_shapes E argv sched with ⟨hp, _⟩ | (⟨hp, _⟩ | ⟨_, hd, h⟩) | ⟨_, hd, h⟩ |
      ⟨_, hd, rc, hrc, h⟩ | ⟨_, hd, rc, ok, st, hrc, _, h⟩ |
      ⟨_, hd, rc, st, rs, hrc, _, hrs, h⟩
    · rw [ho] at hp; cases hp
    · rw [ho] at hp; cases hp
    · rw [h, hd]
      exact ⟨⟨[], rfl⟩, by simp [Outcome.trace]⟩
    · rw [h, hd]
      exact ⟨⟨[], rfl⟩, by simp [Outcome.trace]⟩
    · rw [h, hd]
      refine ⟨⟨_, rfl⟩, ?_⟩
      intro p hm
      simp [Outcome.trace] at hm
      have := hrc _ hm
      simp [Event.isConnect] at this
    · rw [h, hd]
      refine ⟨⟨_, rfl⟩, ?_⟩
      intro p hm
      simp [Outcome.trace] at hm
      have := hrc _ hm
      simp [Event.isConnect] at this
    · have key : ∀ p, Event.print_usage p ∉
          Event.createLidarDriver true :: rc ++ Event.getHealth true st :: Event.signal :: rs := by
        intro p hm
        simp at hm
        rcases hm with hm | hm
        · have := hrc _ hm; simp [Event.isConnect] at this
        · have := hrs _ hm; simp [Event.isSession, Event.isLoop, Event.isSocketSetup] at this
      rcases h with h | ⟨h, _⟩
      · rw [h, hd]; exact ⟨⟨_, rfl⟩, key⟩
      · rw [h, hd]; exact ⟨⟨_, rfl⟩, key⟩

/-- C3 witness: `--help` takes the usage exit; `--channel --udp <host>` does not. -/
theorem C3_usage_exit_witness :
    main envGood ["lidarReceiver", "--help"] []
      = Outcome.exited (-1) [Event.print_usage (some "lidarReceiver")] ∧
    (∀ p, Event.print_usage p ∉
      (main envGood ["lidarReceiver", "--channel", "--udp", "192.168.11.2"] []).trace) :=
  ⟨(C3_usage_exit envGood ["lidarReceiver", "--help"] []).1 (Or.inr (Or.inl (by decide))),
   ((C3_usage_exit envGood ["lidarReceiver", "--channel", "--udp", "192.168.11.2"] []).2
      "--udp" rfl rfl (by decide)).2⟩

/-- C1 (the code at the failing input): for every program name and serial path
`p`, against a driver that is allocated, accepts a connect exactly on a serial
channel at 256000 baud and answers every device-info query, `main` run on
`--channel --serial p` makes a single connect attempt at speed 0 and returns
the connect-failure status `-3`: line 106 sets `useArgcBaudrate` whether or
not a speed was given, so no parsed serial selection ever reaches the loop
over `baudrateArray` of lines 159-173, although that loop itself, run
against the same driver, fails at 115200 and then connects at 256000. -/
theorem C1_fallback_search_skipped (E : Env) (prog p : String) (sched : List Input)
    (halloc : E.createLidarDriver = true)
    (honly : ∀ t ch, E.connect t ch = true ↔ ∃ path, ch = Channel.serial path 256000)
    (hinfo : ∀ t, E.getDeviceInfo t = true) :
    main E [prog, "--channel", "--serial", p] sched
      = Outcome.exited (-3)
          [Event.createLidarDriver true,
           Event.createChannel (Channel.serial p 0),
           Event.connect (Channel.serial p 0) false,
           Event.deleteDriver] ∧
    (∀ argv o, parseArgs E argv = Parsed.ok o →
      o.opt_channel_type = ChannelType.CHANNEL_TYPE_SERIALPORT → o.useArgcBaudrate = true) ∧
    (∀ t, baudrateLoop E p baudrateArray t
      = (true, t ++ [Event.createChannel (Channel.serial p 115200),
           Event.connect (Channel.serial p 115200) false,
           Event.createChannel (Channel.serial p 256000),
           Event.connect (Channel.serial p 256000) true,
           Event.getDeviceInfo true])) := by
  have hno : ∀ t path b, b ≠ 256000 → E.connect t (Channel.serial path b) = false := by
    intro t path b hb
    cases hc : E.connect t (Channel.serial path b) with
    | false => rfl
    | true =>
      obtain ⟨q, hq⟩ := (honly t _).mp hc
      injection hq with _ h2
      exact absurd h2 hb
  have hyes : ∀ t path, E.connect t (Channel.serial path 256000) = true :=
    fun t path => (honly t _).mpr ⟨path, rfl⟩
  refine ⟨?_, fun argv o h hs => parseArgs_serial_flag E argv o h hs, ?_⟩
  · have hparse : parseArgs E [prog, "--channel", "--serial", p]
        = Parsed.ok
            { opt_channel_param_first := some p
              opt_channel_param_second := 0
              opt_channel_type := ChannelType.CHANNEL_TYPE_SERIALPORT
              useArgcBaudrate := true } := by
      simp [parseArgs]
    unfold main
    rw [hparse]
    simp [defaultPort, halloc, connectPhase, tryConnect, hno]
  · intro t
    simp [baudrateLoop, baudrateArray, tryConnect, hno, hyes, hinfo]

/-- C1 witness: the driver of `envOnly256000` and the path `/dev/ttyUSB0`. -/
theorem C1_fallback_search_skipped_witness :
    main envOnly256000 ["lidarReceiver", "--channel", "--serial", "/dev/ttyUSB0"] []
      = Outcome.exited (-3)
          [Event.createLidarDriver true,
           Event.createChannel (Channel.serial "/dev/ttyUSB0" 0),
           Event.connect (Channel.serial "/dev/ttyUSB0" 0) false,
           Event.deleteDriver] :=
  (C1_fallback_search_skipped envOnly256000 "lidarReceiver" "/dev/ttyUSB0" [] rfl
    (by
      intro t ch
      cases ch with
      | serial path baud => simp [envOnly256000]
      | udp host port => simp [envOnly256000])
    (fun _ => rfl)).1

/-! ## Exit statuses (C8) -/

theorem step_countBounded (E : Env) (bound : Nat)
    (hb : ∀ t cap, (E.grabScanDataHq t cap).2.1 ≤ bound) (i : Input) (s : LoopState)
    (h : countBounded bound s) : countBounded bound (step E i s) := by
  cases i with
  | sigint => exact h
  | tick =>
    cases hpc : s.pc with
    | top =>
      by_cases hf : s.ctrl_c_pressed = true
      · simp [step, hpc, hf, countBounded]
      · simp [step, hpc, hf, countBounded]
    | grab =>
      by_cases hg : (E.grabScanDataHq s.trace nodesCapacity).1 = true
      · simp only [step, hpc, hg, if_true, countBounded]
        exact hb _ _
      · simp [step, hpc, hg, countBounded]
    | proc nodes count pos =>
      have hc : count ≤ bound := by simpa [countBounded, hpc] using h
      by_cases hlt : pos < count
      · simp only [step, hpc, hlt, if_true, countBounded]
        exact hc
      · simp [step, hpc, hlt, countBounded]
    | done => simp [step, hpc, countBounded]

theorem run_countBounded (E : Env) (bound : Nat)
    (hb : ∀ t cap, (E.grabScanDataHq t cap).2.1 ≤ bound) (is : List Input) :
    ∀ s, countBounded bound s → countBounded bound (run E is s) := by
  induction is with
  | nil => intro s h; exact h
  | cons i is ih => intro s h; exact ih _ (step_countBounded E bound hb i s h)

theorem stepsToDone_le (E : Env) (bound : Nat)
    (hb : ∀ t cap, (E.grabScanDataHq t cap).2.1 ≤ bound) (s : LoopState)
    (h : countBounded bound s) : stepsToDone E s ≤ bound + 3 := by
  cases hpc : s.pc with
  | top => simp [stepsToDone, hpc]
  | grab =>
    have := hb s.trace nodesCapacity
    simp only [stepsToDone, hpc]
    split <;> omega
  | proc nodes count pos =>
    have hc : count ≤ bound := by simpa [countBounded, hpc] using h
    simp only [stepsToDone, hpc]
    omega
  | done => simp [stepsToDone, hpc]

theorem session_in_loop (E : Env) (o : Opts) (pre : List Input) (t0 tr0 : List Event)
    (h : session E o pre t0 = Outcome.running tr0) :
    ∃ u t, ∀ sched, session E o sched t0
      = match (run E sched (loopStart u t)).pc with
        | Pc.done => finish E o (run E sched (loopStart u t))
        | _ => Outcome.running (run E sched (loopStart u t)).trace := by
  unfold session at h
  simp only at h
  generalize hr : UdpSender.init E (UdpSender.new "10.35.194.214" 7000)
    (if o.opt_channel_type = ChannelType.CHANNEL_TYPE_SERIALPORT
      then t0 ++ [Event.signal] ++ [Event.setMotorSpeed none] else t0 ++ [Event.signal]) = r at h
  by_cases hinit : r.1 = false
  · rw [if_pos hinit] at h; cases h
  · refine ⟨r.2.1, r.2.2, fun sched => ?_⟩
    unfold session
    simp only
    rw [hr, if_neg hinit]

theorem main_in_loop (E : Env) (argv : List String) (pre : List Input) (tr0 : List Event)
    (h : main E argv pre = Outcome.running tr0) :
    ∃ o u t, ∀ sched, main E argv sched
      = match (run E sched (loopStart u t)).pc with
        | Pc.done => finish E o (run E sched (loopStart u t))
        | _ => Outcome.running (run E sched (loopStart u t)).trace := by
  unfold main at h
  cases hparse : parseArgs E argv with
  | usage => rw [hparse] at h; cases h
  | nullDeref => rw [hparse] at h; cases h
  | ok o0 =>
    rw [hparse] at h
    simp only at h
    by_cases hdrv : E.createLidarDriver = false
    · rw [if_pos hdrv] at h; cases h
    · rw [if_neg hdrv] at h
      cases hcp : connectPhase E (defaultPort E o0) [Event.createLidarDriver true] with
      | none => rw [hcp] at h; cases h
      | some c =>
        rw [hcp] at h
        simp only at h
        by_cases hconn : c.1 = false
        · rw [if_pos hconn] at h; cases h
        · rw [if_neg hconn] at h
          by_cases hh : (checkSLAMTECLIDARHealth E c.2).1 = false
          · rw [if_pos hh] at h; cases h
          · rw [if_neg hh] at h
            obtain ⟨u, t, hs⟩ := session_in_loop E (defaultPort E o0) pre _ tr0 h
            refine ⟨defaultPort E o0, u, t, fun sched => ?_⟩
            unfold main
            rw [hparse]
            simp only
            rw [if_neg hdrv, hcp]
            simp only
            rw [if_neg hconn, if_neg hh]
            exact hs sched

/-- C8: a usage error returns `-1`, a failed driver allocation `-2`; once the
channel could be built (the run did not break off on a null host), a failed
connect (or device-info query) returns `-3` and a failed health check `-4`;
these four
values are pairwise distinct and non-zero, also as 8-bit process exit
statuses; a run of `main` that started the scan and returned, returned `0`;
and a run that is inside the acquisition loop returns `0`, after `stop`, once
the signal arrives and the program takes `bound + 3` further steps, `bound`
being any bound on the counts reported by the driver. -/
theorem C8_exit_statuses (E : Env) (argv : List String) (sched : List Input) :
    (parseArgs E argv = Parsed.usage →
      main E argv sched = Outcome.exited (-1) [Event.print_usage (argv.get? 0)]) ∧
    (∀ o, parseArgs E argv = Parsed.ok o → E.createLidarDriver = false →
      main E argv sched = Outcome.exited (-2) [Event.createLidarDriver false]) ∧
    (∀ o c, parseArgs E argv = Parsed.ok o → E.createLidarDriver = true →
      connectPhase E (defaultPort E o) [Event.createLidarDriver true] = some c →
      c.1 = false →
      main E argv sched = Outcome.exited (-3) (c.2 ++ [Event.deleteDriver])) ∧
    (∀ o c, parseArgs E argv = Parsed.ok o → E.createLidarDriver = true →
      connectPhase E (defaultPort E o) [Event.createLidarDriver true] = some c →
      c.1 = true → (checkSLAMTECLIDARHealth E c.2).1 = false →
      main E argv sched
        = Outcome.exited (-4) ((checkSLAMTECLIDARHealth E c.2).2 ++ [Event.deleteDriver])) ∧
    (List.Pairwise (fun a b : Int => a ≠ b) [-1, -2, -3, -4] ∧
      (∀ a ∈ [(-1 : Int), -2, -3, -4], a ≠ 0) ∧
      List.Pairwise (fun a b : Int => a % 256 ≠ b % 256) [-1, -2, -3, -4] ∧
      (∀ a ∈ [(-1 : Int), -2, -3, -4], a % 256 ≠ 0)) ∧
    (∀ st tr, main E argv sched = Outcome.exited st tr →
      (Event.startScan ∈ tr ∨ Event.stop ∈ tr) → st = 0 ∧ Event.stop ∈ tr) ∧
    (∀ pre post tr0 bound, (∀ t cap, (E.grabScanDataHq t cap).2.1 ≤ bound) →
      main E argv pre = Outcome.running tr0 → bound + 3 ≤ ticks post →
      ∃ tr, main E argv (pre ++ Input.sigint :: post) = Outcome.exited 0 tr ∧ Event.stop ∈ tr) := by
  refine ⟨?_, ?_, ?_, ?_, by decide, ?_, ?_⟩
  · intro hp
    unfold main; rw [hp]
  · intro o hp hd
    unfold main; rw [hp]; simp only; rw [if_pos hd]
  · intro o c hp hd hcp hc
    unfold main; rw [hp]; simp only
    rw [if_neg (by simp [hd]), hcp]
    simp only
    rw [if_pos hc]
  · intro o c hp hd hcp hc hh
    unfold main; rw [hp]; simp only
    rw [if_neg (by simp [hd]), hcp]
    simp only
    rw [if_neg (by simp [hc]), if_pos hh]
  · intro st tr hm hmem
    rcases main_cases E argv sched with h | (h | h) | h | ⟨rc, hrc, h⟩ |
      ⟨rc, ok1, st1, hrc, _, h⟩ | ⟨rc, st2, rs, hrc, _, hrs, h⟩
    · rw [h] at hm; injection hm with _ e2; subst e2; simp at hmem
    · rw [h] at hm; cases hm
    · rw [h] at hm; cases hm
    · rw [h] at hm; injection hm with _ e2; subst e2; simp at hmem
    · rw [h] at hm; injection hm with _ e2; subst e2
      simp at hmem
      rcases hmem with hmem | hmem
      · have hc := hrc _ hmem; simp [Event.isConnect] at hc
      · have hc := hrc _ hmem; simp [Event.isConnect] at hc
    · rw [h] at hm; injection hm with _ e2; subst e2
      simp at hmem
      rcases hmem with hmem | hmem
      · have hc := hrc _ hmem; simp [Event.isConnect] at hc
      · have hc := hrc _ hmem; simp [Event.isConnect] at hc
    · rcases h with h | ⟨h, hstop⟩
      · rw [h] at hm; cases hm
      · rw [h] at hm; injection hm with e1 e2; subst e1; subst e2
        refine ⟨rfl, ?_⟩
        simp only [List.mem_append, List.mem_cons] at hmem ⊢
        rcases hmem with (hm1 | hm1 | hm1 | hm1) | (hm1 | hm1 | hm1 | hm1)
        · have := hrc _ hm1; simp [Event.isConnect] at this
        · cases hm1
        · cases hm1
        · exact Or.inr (Or.inr (Or.inr (hstop hm1)))
        · have := hrc _ hm1; simp [Event.isConnect] at this
        · cases hm1
        · cases hm1
        · exact Or.inr (Or.inr (Or.inr hm1))
  · intro pre post tr0 bound hb hrun hk
    obtain ⟨o, u, t, hall⟩ := main_in_loop E argv pre tr0 hrun
    have hflag : (run E (pre ++ [Input.sigint]) (loopStart u t)).ctrl_c_pressed = true := by
      rw [run_append]; rfl
    have hinv : countBounded bound (run E (pre ++ [Input.sigint]) (loopStart u t)) :=
      run_countBounded E bound hb _ _ (by simp [countBounded, loopStart])
    have hsteps := stepsToDone_le E bound hb _ hinv
    have hdone : (run E (pre ++ Input.sigint :: post) (loopStart u t)).pc = Pc.done := by
      have : pre ++ Input.sigint :: post = (pre ++ [Input.sigint]) ++ post := by simp
      rw [this, run_append]
      exact run_exits E post _ hflag (by omega)
    obtain ⟨rest, hfin, _, hstop⟩ :=
      finish_events E o (run E (pre ++ Input.sigint :: post) (loopStart u t))
    refine ⟨(run E (pre ++ Input.sigint :: post) (loopStart u t)).trace ++ rest, ?_,
      List.mem_append.mpr (Or.inr hstop)⟩
    rw [hall, hdone]
    exact hfin

/-- C8 witness: one run for each status.  No argument (`-1`); no driver
(`-2`); no device (`-3`); health `Error` (`-4`); and a healthy device whose
session is cancelled, returning `0` after `stop`. -/
theorem C8_exit_statuses_witness :
    main envGood ["lidarReceiver"] []
      = Outcome.exited (-1) [Event.print_usage (some "lidarReceiver")] ∧
    main envNoDriver ["lidarReceiver", "--channel", "--serial", "/dev/ttyUSB0", "115200"] []
      = Outcome.exited (-2) [Event.createLidarDriver false] ∧
    main envNoDevice ["lidarReceiver", "--channel", "--serial", "/dev/ttyUSB0", "115200"] []
      = Outcome.exited (-3)
          [Event.createLidarDriver true,
           Event.createChannel (Channel.serial "/dev/ttyUSB0" 115200),
           Event.connect (Channel.serial "/dev/ttyUSB0" 115200) false,
           Event.deleteDriver] ∧
    main envHealthError ["lidarReceiver", "--channel", "--serial", "/dev/ttyUSB0", "115200"] []
      = Outcome.exited (-4)
          [Event.createLidarDriver true,
           Event.createChannel (Channel.serial "/dev/ttyUSB0" 115200),
           Event.connect (Channel.serial "/dev/ttyUSB0" 115200) true,
           Event.getDeviceInfo true,
           Event.getHealth true HealthStatus.Error,
           Event.deleteDriver] ∧
    Event.stop ∈ (main envGood
      ["lidarReceiver", "--channel", "--serial", "/dev/ttyUSB0", "115200"]
      [Input.sigint, Input.tick]).trace ∧
    (∃ tr, main envGood ["lidarReceiver", "--channel", "--serial", "/dev/ttyUSB0", "115200"]
        ([Input.tick, Input.tick] ++ Input.sigint ::
          [Input.tick, Input.tick, Input.tick, Input.tick, Input.tick])
      = Outcome.exited 0 tr ∧ Event.stop ∈ tr) :=
  ⟨(C8_exit_statuses envGood ["lidarReceiver"] []).1 (by decide),
   (C8_exit_statuses envNoDriver
      ["lidarReceiver", "--channel", "--serial", "/dev/ttyUSB0", "115200"] []).2.1
      { opt_channel_param_first := some "/dev/ttyUSB0"
        opt_channel_param_second := 115200
        opt_channel_type := ChannelType.CHANNEL_TYPE_SERIALPORT
        useArgcBaudrate := true } (by decide) (by decide),
   (C8_exit_statuses envNoDevice
      ["lidarReceiver", "--channel", "--serial", "/dev/ttyUSB0", "115200"] []).2.2.1
      { opt_channel_param_first := some "/dev/ttyUSB0"
        opt_channel_param_second := 115200
        opt_channel_type := ChannelType.CHANNEL_TYPE_SERIALPORT
        useArgcBaudrate := true }
      (false, [Event.createLidarDriver true,
        Event.createChannel (Channel.serial "/dev/ttyUSB0" 115200),
        Event.connect (Channel.serial "/dev/ttyUSB0" 115200) false])
      (by decide) (by decide) (by decide) rfl,
   (C8_exit_statuses envHealthError
      ["lidarReceiver", "--channel", "--serial", "/dev/ttyUSB0", "115200"] []).2.2.2.1
      { opt_channel_param_first := some "/dev/ttyUSB0"
        opt_channel_param_second := 115200
        opt_channel_type := ChannelType.CHANNEL_TYPE_SERIALPORT
        useArgcBaudrate := true }
      (true, [Event.createLidarDriver true,
        Event.createChannel (Channel.serial "/dev/ttyUSB0" 115200),
        Event.connect (Channel.serial "/dev/ttyUSB0" 115200) true,
        Event.getDeviceInfo true])
      (by decide) (by decide) (by decide) rfl (by decide),
   ((C8_exit_statuses envGood
      ["lidarReceiver", "--channel", "--serial", "/dev/ttyUSB0", "115200"]
      [Input.sigint, Input.tick]).2.2.2.2.2.1 0
      (main envGood ["lidarReceiver", "--channel", "--serial", "/dev/ttyUSB0", "115200"]
        [Input.sigint, Input.tick]).trace (by decide) (Or.inl (by decide))).2,
   (C8_exit_statuses envGood
      ["lidarReceiver", "--channel", "--serial", "/dev/ttyUSB0", "115200"] []).2.2.2.2.2.2
      [Input.tick, Input.tick] [Input.tick, Input.tick, Input.tick, Input.tick, Input.tick]
      (main envGood ["lidarReceiver", "--channel", "--serial", "/dev/ttyUSB0", "115200"]
        [Input.tick, Input.tick]).trace 2 (fun _ _ => Nat.le_refl 2) (by decide) (by decide)⟩

end LidarReceiver
